import Mathlib

/-!
# Multibeam sonar plugin (`multibeam_sonar_ray_based.cpp`)

A shallow embedding of the numerical parts of `NpsGazeboRosMultibeamSonarRay`
and the properties proved about them.

Conventions of the embedding:

* finite floating-point values are read as exact numbers (rounding and
  overflow of finite values are not modelled);
* `for` loops become `List.foldl` over `List.range n`, the loop state being
  the accumulator;
* values obtained from collaborators (the ray sensor, the point cloud
  library, the synthesis kernel, libm) are parameters.
-/

namespace NpsGazeboRosMultibeamSonarRay

/-! ## `Load`: range vector (source lines 195-206) -/

namespace Load

section RangeVector

variable {K : Type} [LinearOrderedField K] [FloorRing K]

/-- `const float max_T = this->maxDistance*2.0/this->soundSpeed;` -/
def max_T (maxDistance soundSpeed : K) : K := maxDistance * 2 / soundSpeed

/-- `float delta_f = 1.0/max_T;` (the value used to size the vector). -/
def delta_f (maxDistance soundSpeed : K) : K := 1 / max_T maxDistance soundSpeed

/-- `const float delta_t = 1.0/this->bandwidth;` -/
def delta_t (bandwidth : K) : K := 1 / bandwidth

/-- `this->nFreq = ceil(this->bandwidth/delta_f);` -/
def nFreq (maxDistance soundSpeed bandwidth : K) : Int :=
  Int.ceil (bandwidth / delta_f maxDistance soundSpeed)

/-- The loop `for (int i = 0; i < nTime; i++) rangeVector[i] = delta_t*i*soundSpeed/2.0;`
with `nTime = nFreq`; a non-positive `nTime` runs no iteration. -/
def rangeVector (maxDistance soundSpeed bandwidth : K) : List K :=
  (List.range (nFreq maxDistance soundSpeed bandwidth).toNat).foldl
    (fun (rv : List K) (i : Nat) => rv ++ [delta_t bandwidth * (i : K) * soundSpeed / 2]) []

end RangeVector

/-! ## `Load`: ray skips (source lines 169-173 and 185) -/

/-- The value of `this->raySkips` that `Load` leaves in place; `configured` is
the content of the `raySkips` element of the SDF, `none` when the element is
absent.

    if (!_sdf->HasElement("raySkips")) this->raySkips = 10;
    else this->raySkips = _sdf->GetElement("raySkips")->Get<int>();
    if (this->raySkips == 0) this->raySkips = 1; -/
def raySkips (configured : Option Int) : Int :=
  let raySkips : Int :=
    match configured with
    | none => 10
    | some v => v
  if raySkips = 0 then 1 else raySkips

end Load

/-! ## `ComputeSonarImage`: kernel arguments and quantizer -/

namespace ComputeSonarImage

/-- Argument `_raySkips` of `sonar_calculation_wrapper` (source line 420):
the member `this->raySkips` is passed as it is. -/
def raySkipsArg (raySkips : Int) : Int := raySkips

/-- Conversion `static_cast<int>(v)` of a finite floating-point value:
truncation toward zero.  In C++ the conversion is defined only when the
truncated value is representable in `int` (see `fitsInt`). -/
def static_cast_int (v : ℚ) : Int := if 0 ≤ v then Int.floor v else Int.ceil v

/-- Smallest value of a 32-bit `int`. -/
def INT_MIN : Int := -2147483648

/-- Largest value of a 32-bit `int`. -/
def INT_MAX : Int := 2147483647

/-- The truncated value is representable in `int`, so that the conversion
`static_cast<int>` is defined. -/
def fitsInt (t : Int) : Prop := INT_MIN ≤ t ∧ t ≤ INT_MAX

instance (t : Int) : Decidable (fitsInt t) := by
  unfold fitsInt; infer_instance

/-- The constant `UCHAR_MAX`, of type `int`. -/
def UCHAR_MAX : Int := 255

/-- Conversion `static_cast<uchar>(n)` of an `int`: reduction modulo `2^8`. -/
def static_cast_uchar (n : Int) : Nat := (n % 256).toNat

/-- `Intensity[beam][f] = static_cast<int>(this->sensorGain * abs(P_Beams[beam][f]));`
where `absP` is the magnitude `abs(P_Beams[beam][f])` of the complex echo. -/
def Intensity (sensorGain absP : ℚ) : Int := static_cast_int (sensorGain * absP)

/-- `uchar counts = static_cast<uchar>(std::min(UCHAR_MAX, Intensity[beam][f]));` -/
def counts (sensorGain absP : ℚ) : Nat :=
  static_cast_uchar (min UCHAR_MAX (Intensity sensorGain absP))

/-- The loops of source lines 502-512 that fill `intensities`:

    for (size_t f = 0; f < nFreq; f ++)
      for (size_t beam = 0; beam < nBeams; beam ++)
        { ...; intensities.push_back(counts); }

`absP beam f` is the magnitude of the kernel output `P_Beams[beam][f]`. -/
def intensities (sensorGain : ℚ) (absP : Nat → Nat → ℚ) (nBeams nFreq : Nat) :
    List Nat :=
  (List.range nFreq).foldl
    (fun (acc : List Nat) (f : Nat) =>
      (List.range nBeams).foldl
        (fun (acc : List Nat) (beam : Nat) =>
          acc ++ [counts sensorGain (absP beam f)])
        acc)
    []

/-- The clamp of the specification: an integer brought into the unsigned
8-bit range `0..255`. -/
def spec_clampToByte (t : Int) : Nat := (max 0 (min 255 t)).toNat

end ComputeSonarImage

/-! ## Floating-point values with their special values -/

/-- A value of the C++ type `float`: a finite number (read exactly), an
infinity with its sign, or NaN.  Signed zeros are not distinguished. -/
inductive FloatVal where
  | fin (v : ℚ)
  | inf (negative : Bool)
  | nan
deriving DecidableEq, Repr

namespace FloatVal

/-- The test `isnan(v)`. -/
def isnan : FloatVal → Bool
  | nan => true
  | _ => false

/-- The value is a finite number (neither NaN nor an infinity). -/
def isfinite : FloatVal → Bool
  | fin _ => true
  | _ => false

/-- IEEE 754 product: NaN propagates, `0 * inf` is NaN, the sign of an
infinite product is the product of the signs. -/
def mul : FloatVal → FloatVal → FloatVal
  | nan, _ => nan
  | _, nan => nan
  | fin a, fin b => fin (a * b)
  | fin a, inf s => if a = 0 then nan else inf (xor s (decide (a < 0)))
  | inf s, fin b => if b = 0 then nan else inf (xor s (decide (b < 0)))
  | inf s, inf t => inf (xor s t)

/-- IEEE 754 sum: NaN propagates, `inf + (-inf)` is NaN. -/
def add : FloatVal → FloatVal → FloatVal
  | nan, _ => nan
  | _, nan => nan
  | fin a, fin b => fin (a + b)
  | fin _, inf s => inf s
  | inf s, fin _ => inf s
  | inf s, inf t => if s = t then inf s else nan

/-- IEEE 754 negation. -/
def neg : FloatVal → FloatVal
  | nan => nan
  | inf s => inf (!s)
  | fin v => fin (-v)

/-- The libm function `sqrt`: NaN for NaN, for `-inf` and for negative
numbers, `+inf` for `+inf`; on a finite non-negative number the (rounded)
root is given by the parameter `sqrtFin`. -/
def sqrt (sqrtFin : ℚ → ℚ) : FloatVal → FloatVal
  | nan => nan
  | inf false => inf false
  | inf true => nan
  | fin v => if v < 0 then nan else fin (sqrtFin v)

/-- IEEE 754 difference: `a - b` is `a + (-b)`. -/
def sub (a b : FloatVal) : FloatVal := add a (neg b)

/-- IEEE 754 quotient: NaN propagates, `inf / inf` and `0 / 0` are NaN, a
non-zero number over zero is infinite, a number over an infinity is zero
(a zero divisor is taken as positive, signed zeros not being distinguished). -/
def div : FloatVal → FloatVal → FloatVal
  | nan, _ => nan
  | _, nan => nan
  | fin a, fin b =>
    if b = 0 then (if a = 0 then nan else inf (decide (a < 0))) else fin (a / b)
  | fin _, inf _ => fin 0
  | inf s, fin b => inf (xor s (decide (b < 0)))
  | inf _, inf _ => nan

/-- The comparison `a == b` of two `float` values: false as soon as one of
them is NaN. -/
def eq : FloatVal → FloatVal → Bool
  | nan, _ => false
  | _, nan => false
  | fin a, fin b => decide (a = b)
  | inf s, inf t => decide (s = t)
  | fin _, inf _ => false
  | inf _, fin _ => false

end FloatVal

/-! ## `UpdatePointCloud` (source lines 603-635) -/

/-- A point of `pcl::PointCloud<pcl::PointXYZI>`. -/
structure PointXYZI where
  x : FloatVal
  y : FloatVal
  z : FloatVal
  intensity : FloatVal
deriving DecidableEq, Repr

namespace UpdatePointCloud

/-- The members written by `UpdatePointCloud`: the buffer of
`point_cloud_image_` (a `height x width` matrix of `float`, cell `(j, i)` at
offset `j * width + i`) and the vector `azimuth_angles`. -/
structure Members where
  point_cloud_image_ : Nat → FloatVal
  azimuth_angles : List FloatVal

/-- State of the two nested loops: the members and the position of the
iterator `iter_image`, counted from `point_cloud_image_.begin<float>()`. -/
structure LoopState where
  point_cloud_image_ : Nat → FloatVal
  azimuth_angles : List FloatVal
  iter_image : Nat

/-- The value `sqrt(point.x * point.x + point.y * point.y + point.z * point.z)`. -/
def range (sqrtFin : ℚ → ℚ) (point : PointXYZI) : FloatVal :=
  FloatVal.sqrt sqrtFin
    (FloatVal.add (FloatVal.add (FloatVal.mul point.x point.x)
      (FloatVal.mul point.y point.y)) (FloatVal.mul point.z point.z))

/-- The sentinel `100000.0`. -/
def sentinel : FloatVal := FloatVal.fin 100000

/-- Body of the inner loop for row `j` and column `i`, followed by the
increment `++iter_image`:

    pcl::PointXYZI point = pcl_pointcloud->at(j, this->width - i - 1);
    this->point_cloud_image_.at<float>(j, i) = sqrt(...);
    if (!azimuth_angles_calculation_flag)
      azimuth_angles.push_back(-atan2(point.y,point.x));
    if (isnan(*iter_image)) *iter_image = 100000.0;

`cloudAt a b` is the point `pcl_pointcloud->at(a, b)`, `atan2` the libm
function and `flag` the value of `azimuth_angles_calculation_flag`. -/
def cellStep (sqrtFin : ℚ → ℚ) (atan2 : FloatVal → FloatVal → FloatVal)
    (width : Nat) (cloudAt : Nat → Nat → PointXYZI) (flag : Bool) (j : Nat)
    (st : LoopState) (i : Nat) : LoopState :=
  let point : PointXYZI := cloudAt j (width - i - 1)
  let image1 : Nat → FloatVal :=
    Function.update st.point_cloud_image_ (j * width + i) (range sqrtFin point)
  let angles1 : List FloatVal :=
    if !flag then st.azimuth_angles ++ [FloatVal.neg (atan2 point.y point.x)]
    else st.azimuth_angles
  let image2 : Nat → FloatVal :=
    if FloatVal.isnan (image1 st.iter_image) then
      Function.update image1 st.iter_image sentinel
    else image1
  { point_cloud_image_ := image2, azimuth_angles := angles1,
    iter_image := st.iter_image + 1 }

/-- The inner loop `for (uint32_t i = 0; i < this->width; i++, ++iter_image)`. -/
def rowLoop (sqrtFin : ℚ → ℚ) (atan2 : FloatVal → FloatVal → FloatVal)
    (width : Nat) (cloudAt : Nat → Nat → PointXYZI) (flag : Bool)
    (st : LoopState) (j : Nat) : LoopState :=
  (List.range width).foldl (cellStep sqrtFin atan2 width cloudAt flag j) st

/-- The value of the local `azimuth_angles_calculation_flag` when the loops
start: it is declared without initializer and set to `false` only when
`azimuth_angles` is empty; otherwise it holds the indeterminate value
`indeterminate`. -/
def calculationFlag (azimuth_angles : List FloatVal) (indeterminate : Bool) : Bool :=
  if azimuth_angles.length = 0 then false else indeterminate

/-- The callback `UpdatePointCloud` for a `width x height` sensor.  The image
buffer and `azimuth_angles` come from `m`; the iterator starts at the first
cell. -/
def run (sqrtFin : ℚ → ℚ) (atan2 : FloatVal → FloatVal → FloatVal)
    (width height : Nat) (cloudAt : Nat → Nat → PointXYZI) (indeterminate : Bool)
    (m : Members) : Members :=
  let flag : Bool := calculationFlag m.azimuth_angles indeterminate
  let final : LoopState :=
    (List.range height).foldl (rowLoop sqrtFin atan2 width cloudAt flag)
      { point_cloud_image_ := m.point_cloud_image_,
        azimuth_angles := m.azimuth_angles, iter_image := 0 }
  { point_cloud_image_ := final.point_cloud_image_,
    azimuth_angles := final.azimuth_angles }

/-- The value the loops leave in the cell of a point: the sentinel for a NaN
range, the range otherwise. -/
def stored (sqrtFin : ℚ → ℚ) (point : PointXYZI) : FloatVal :=
  if FloatVal.isnan (range sqrtFin point) then sentinel else range sqrtFin point

end UpdatePointCloud

/-! ## `Load`: Hamming window (source lines 272-281), over the reals -/

namespace Load

/-- The value `0.54 - 0.46 * cos(2.0*M_PI*(f+1)/this->nFreq)`. -/
noncomputable def windowValue (nFreq f : Nat) : ℝ :=
  0.54 - 0.46 * Real.cos (2 * Real.pi * ((f : ℝ) + 1) / (nFreq : ℝ))

/-- State of the first window loop: the array `window` and `windowSum`. -/
structure WindowState where
  window : Nat → ℝ
  windowSum : ℝ

/-- Body of the first window loop:

    this->window[f] = 0.54 - 0.46 * cos(2.0*M_PI*(f+1)/this->nFreq);
    windowSum += pow(this->window[f], 2.0); -/
noncomputable def windowFill (nFreq : Nat) (st : WindowState) (f : Nat) : WindowState :=
  let window1 : Nat → ℝ := Function.update st.window f (windowValue nFreq f)
  { window := window1, windowSum := st.windowSum + (window1 f) ^ 2 }

/-- Body of the second window loop:
`this->window[f] = this->window[f]/sqrt(windowSum);` -/
noncomputable def windowScale (windowSum : ℝ) (window : Nat → ℝ) (f : Nat) : Nat → ℝ :=
  Function.update window f (window f / Real.sqrt windowSum)

/-- The first loop, started with `windowSum = 0` on the freshly allocated
array `fresh`. -/
noncomputable def windowFilled (nFreq : Nat) (fresh : Nat → ℝ) : WindowState :=
  (List.range nFreq).foldl (windowFill nFreq) { window := fresh, windowSum := 0 }

/-- The array `window` after both loops. -/
noncomputable def window (nFreq : Nat) (fresh : Nat → ℝ) : Nat → ℝ :=
  (List.range nFreq).foldl (windowScale (windowFilled nFreq fresh).windowSum)
    (windowFilled nFreq fresh).window

end Load

/-! ## `ComputeCorrector` (source lines 678-700) and its lazy call, over the reals -/

/-- Modelled from the spec: the helper `unnormalized_sinc` of the header
`sonar_calculation_cuda.cuh`, which is not among the sources.  The spec calls
it a sinc-based beam pattern whose value at zero angular offset is 1: the
unnormalized sinc `sin t / t`, completed by `1` at `t = 0`. -/
noncomputable def unnormalized_sinc (t : ℝ) : ℝ :=
  if t = 0 then 1 else Real.sin t / t

/-- The members written by `ComputeCorrector`: the matrix `beamCorrector`
(an array of rows) and `beamCorrectorSum`. -/
structure Corrector where
  beamCorrector : Nat → Nat → ℝ
  beamCorrectorSum : ℝ

/-- The sensor geometry read by `ComputeCorrector`: `HorzFOV()` of the parent
sensor, the members `width` and `nBeams`, and `azimuth_angles`. -/
structure Geometry where
  hFOV : ℝ
  width : Nat
  nBeams : Nat
  azimuth_angles : List ℝ

namespace ComputeCorrector

/-- `double hPixelSize = hFOV / (this->width-1);` -/
noncomputable def hPixelSize (g : Geometry) : ℝ := g.hFOV / ((g.width : ℝ) - 1)

/-- The local `azimuthBeamPattern` for the pair `(beam, beam_other)`:

    unnormalized_sinc(M_PI * 0.884 / hPixelSize
      * sin(azimuth_angles[beam]-azimuth_angles[beam_other]))

A read of `azimuth_angles` past its end, undefined in C++, yields `0`. -/
noncomputable def azimuthBeamPattern (g : Geometry) (beam beam_other : Nat) : ℝ :=
  unnormalized_sinc (Real.pi * 0.884 / hPixelSize g
    * Real.sin (g.azimuth_angles.getD beam 0 - g.azimuth_angles.getD beam_other 0))

/-- Body of the inner loop:

    this->beamCorrector[beam][beam_other] = abs(azimuthBeamPattern);
    this->beamCorrectorSum += pow(azimuthBeamPattern, 2);

`abs` is read as the absolute value of a floating-point number. -/
noncomputable def pairStep (g : Geometry) (beam : Nat) (c : Corrector) (beam_other : Nat) :
    Corrector :=
  { beamCorrector :=
      Function.update c.beamCorrector beam
        (Function.update (c.beamCorrector beam) beam_other
          |azimuthBeamPattern g beam beam_other|),
    beamCorrectorSum := c.beamCorrectorSum + (azimuthBeamPattern g beam beam_other) ^ 2 }

/-- The inner loop `for (size_t beam_other = 0; beam_other < nBeams; beam_other ++)`. -/
noncomputable def beamLoop (g : Geometry) (c : Corrector) (beam : Nat) : Corrector :=
  (List.range g.nBeams).foldl (pairStep g beam) c

/-- The function `ComputeCorrector`: both loops, then
`this->beamCorrectorSum = sqrt(this->beamCorrectorSum);`. -/
noncomputable def run (g : Geometry) (c : Corrector) : Corrector :=
  let filled : Corrector := (List.range g.nBeams).foldl (beamLoop g) c
  { beamCorrector := filled.beamCorrector,
    beamCorrectorSum := Real.sqrt filled.beamCorrectorSum }

end ComputeCorrector

/-- The corrector members as `Load` leaves them (source lines 283-287): the
rows are allocated without being initialized (`fresh`), and
`this->beamCorrectorSum = 0.0;`. -/
def Load.corrector (fresh : Nat → Nat → ℝ) : Corrector :=
  { beamCorrector := fresh, beamCorrectorSum := 0 }

/-- The effect of one `ComputeSonarImage` call on the corrector members
(source lines 391-392): `if (this->beamCorrectorSum == 0) ComputeCorrector();`.
Nothing else in `ComputeSonarImage` assigns them; the synthesis kernel
receives them as inputs. -/
noncomputable def ComputeSonarImage.corrector (g : Geometry) (c : Corrector) : Corrector :=
  if c.beamCorrectorSum = 0 then ComputeCorrector.run g c else c

/-! ## `Load`: attachment to the parent sensor (source lines 84-118) -/

namespace Load

/-- The ray sensor behind the pointer `parentSensor`, with the two counts
`Load` reads from it. -/
structure GpuRaySensor where
  RangeCount : Nat
  VerticalRangeCount : Nat
deriving DecidableEq, Repr

/-- The uses `Load` makes of the sensor: member functions called through
`this->parentSensor`, and the registration of the new-frame callback on the
laser camera obtained from it. -/
inductive SensorUse where
  | LaserCamera
  | RangeCount
  | VerticalRangeCount
  | ConnectNewLaserFrame
  | SetActive (active : Bool)
deriving DecidableEq, Repr

/-- What the first part of `Load` does, in order: uses of the sensor and the
error message written to `gzerr`. -/
inductive Event where
  | use (u : SensorUse)
  | gzerr
deriving DecidableEq, Repr

/-- A member function called through a null `parentSensor`: the behaviour of
the program is undefined from there on. -/
inductive Fault where
  | nullDereference (u : SensorUse)
deriving DecidableEq, Repr

/-- A member function call `this->parentSensor->u(...)`: undefined when the
pointer is null, recorded in the log otherwise. -/
def through (parentSensor : Option GpuRaySensor) (u : SensorUse) (log : List Event) :
    Except Fault (List Event) :=
  match parentSensor with
  | none => Except.error (Fault.nullDereference u)
  | some _ => Except.ok (log ++ [Event.use u])

/-- The first part of `Load`, with `parentSensor` the result of
`std::dynamic_pointer_cast<sensors::GpuRaySensor>(_sensor)` (`none` when the
sensor is not a GPU ray sensor):

    this->laserCamera = this->parentSensor->LaserCamera();
    if (!this->parentSensor) { gzerr << "..."; return; }
    ...
    this->width = this->parentSensor->RangeCount();
    this->height = this->parentSensor->VerticalRangeCount();
    this->newLaserFrameConnection = this->laserCamera->ConnectNewLaserFrame(...);
    this->parentSensor->SetActive(true); -/
def attach (parentSensor : Option GpuRaySensor) : Except Fault (List Event) :=
  match through parentSensor SensorUse.LaserCamera [] with
  | Except.error fault => Except.error fault
  | Except.ok log1 =>
    if parentSensor.isNone then
      Except.ok (log1 ++ [Event.gzerr])
    else
      match through parentSensor SensorUse.RangeCount log1 with
      | Except.error fault => Except.error fault
      | Except.ok log2 =>
        match through parentSensor SensorUse.VerticalRangeCount log2 with
        | Except.error fault => Except.error fault
        | Except.ok log3 =>
          through parentSensor (SensorUse.SetActive true)
            (log3 ++ [Event.use SensorUse.ConnectNewLaserFrame])

end Load

/-! ## `ComputeSonarImage`: beam sectors and polar renderer (source lines 520-580) -/

namespace ComputeSonarImage

/-- `struct BearingEntry { float begin, center, end; }` (the field `end` is
written `end_`). -/
structure BearingEntry where
  begin : FloatVal
  center : FloatVal
  end_ : FloatVal
deriving DecidableEq, Repr

/-- One iteration of the loop of source lines 541-561, for beam `b`, with
`angles` the vector built so far:

    const float center = azimuth_angles[b];
    if (b == 0) { end = (azimuth_angles[b + 1] + center) / 2.0;
                  begin = 2 * center - end; }
    else if (b == nBeams - 1) { begin = angles[b - 1].end;
                                end = 2 * center - begin; }
    else { begin = angles[b - 1].end;
           end = (azimuth_angles[b + 1] + center) / 2.0; }
    angles.push_back(BearingEntry(begin, center, end));

A read past the end of `azimuth_angles` or `angles`, undefined in C++, yields
NaN. -/
def anglesStep (nBeams : Nat) (azimuth_angles : List FloatVal)
    (angles : List BearingEntry) (b : Nat) : List BearingEntry :=
  let center : FloatVal := azimuth_angles.getD b FloatVal.nan
  if b = 0 then
    let end_ : FloatVal :=
      FloatVal.div (FloatVal.add (azimuth_angles.getD (b + 1) FloatVal.nan) center)
        (FloatVal.fin 2)
    let begin : FloatVal := FloatVal.sub (FloatVal.mul (FloatVal.fin 2) center) end_
    angles ++ [BearingEntry.mk begin center end_]
  else if (b : Int) = (nBeams : Int) - 1 then
    let begin : FloatVal :=
      (angles.getD (b - 1) (BearingEntry.mk FloatVal.nan FloatVal.nan FloatVal.nan)).end_
    let end_ : FloatVal := FloatVal.sub (FloatVal.mul (FloatVal.fin 2) center) begin
    angles ++ [BearingEntry.mk begin center end_]
  else
    let begin : FloatVal :=
      (angles.getD (b - 1) (BearingEntry.mk FloatVal.nan FloatVal.nan FloatVal.nan)).end_
    let end_ : FloatVal :=
      FloatVal.div (FloatVal.add (azimuth_angles.getD (b + 1) FloatVal.nan) center)
        (FloatVal.fin 2)
    angles ++ [BearingEntry.mk begin center end_]

/-- The vector `angles` after `for ( int b = 0; b < nBeams; ++b )`. -/
def angles (nBeams : Nat) (azimuth_angles : List FloatVal) : List BearingEntry :=
  (List.range nBeams).foldl (anglesStep nBeams azimuth_angles) []

/-- `const int intensity = this->sensorGain * abs(P_Beams[b][r]);`: the
product is converted to `int`, that is truncated toward zero (`absP` is the
magnitude of the echo). -/
def intensity (sensorGain absP : ℚ) : Int := static_cast_int (sensorGain * absP)

/-- The colour argument of `cv::ellipse`:
`intensity/2500.0*this->plotScaler`. -/
def fillValue (sensorGain absP plotScaler : ℚ) : ℚ :=
  (intensity sensorGain absP : ℚ) / 2500 * plotScaler

/-- The fill value of the specification: `(gain * |echo|) / 2500 * plotScaler`. -/
def spec_fillValue (sensorGain absP plotScaler : ℚ) : ℚ :=
  (sensorGain * absP) / 2500 * plotScaler

/-- Conversion of an `int` to `unsigned int`: reduction modulo `2^32`. -/
def toUnsigned (n : Int) : Nat := (n % 4294967296).toNat

/-- `const float rangeRes = ranges[1]-ranges[0];` and
`const int nEffectiveRanges = ceil(rangeMax / rangeRes);` with
`rangeMax = maxDistance`. -/
def nEffectiveRanges (maxDistance : ℚ) (ranges : List ℚ) : Int :=
  Int.ceil (maxDistance / (ranges.getD 1 0 - ranges.getD 0 0))

/-- `const float binThickness = 2 * ceil(radius / nEffectiveRanges);` with
`radius` of type `unsigned int` and `nEffectiveRanges` of type `int`: the
division is the division of unsigned integers, and `ceil` is applied to its
integer result. -/
def binThickness (radius : Nat) (nEffectiveRanges : Int) : ℚ :=
  2 * ((Int.ceil (((radius / toUnsigned nEffectiveRanges : Nat) : ℚ)) : Int) : ℚ)

/-- The wedge thickness of the specification:
`2 * ceil(radius / nEffectiveRanges)` with the exact quotient. -/
def spec_binThickness (radius : Nat) (nEffectiveRanges : Int) : ℚ :=
  2 * ((Int.ceil ((radius : ℚ) / (nEffectiveRanges : ℚ)) : Int) : ℚ)

end ComputeSonarImage

/-! ## `ComputeNormalImage` (source lines 703-752), over the reals -/

namespace ComputeNormalImage

/-- A single-channel `cv::Mat` of `rows x cols` values; `pixel y x` is the
value of row `y` and column `x`. -/
structure Mat where
  rows : Nat
  cols : Nat
  pixel : Nat → Nat → ℝ

/-- A pixel of the three-channel normal image (`cv::Vec3f`). -/
structure Vec3f where
  v0 : ℝ
  v1 : ℝ
  v2 : ℝ

/-- The border mode `cv::BORDER_REPLICATE` for an axis of `n` cells: a
coordinate outside `0..n-1` is moved to the nearest cell. -/
def replicate (n : Nat) (i : Int) : Nat := (min (max i 0) ((n : Int) - 1)).toNat

/-- The filter `f1`: `(cv::Mat_<float>(3, 3) << 1, 2, 1, 0, 0, 0, -1, -2, -1) / 8`. -/
noncomputable def f1 : List (List ℝ) :=
  ([[1, 2, 1], [0, 0, 0], [-1, -2, -1]] : List (List ℝ)).map
    (fun row => row.map (fun v => v / 8))

/-- The filter `f2`: `(cv::Mat_<float>(3, 3) << 1, 0, -1, 2, 0, -2, 1, 0, -1) / 8`. -/
noncomputable def f2 : List (List ℝ) :=
  ([[1, 0, -1], [2, 0, -2], [1, 0, -1]] : List (List ℝ)).map
    (fun row => row.map (fun v => v / 8))

/-- `cv::flip(f1, f1m, 0)`: the rows in reverse order. -/
noncomputable def f1m : List (List ℝ) := f1.reverse

/-- `cv::flip(f2, f2m, 1)`: every row in reverse order. -/
noncomputable def f2m : List (List ℝ) := f2.map List.reverse

/-- The call `cv::filter2D(depth, dst, -1, kernel, cv::Point(-1, -1), 0,
cv::BORDER_REPLICATE)` for a `3 x 3` kernel: the correlation of the image
with the kernel anchored at its centre. -/
noncomputable def filter2D (kernel : List (List ℝ)) (depth : Mat) (y x : Nat) : ℝ :=
  ∑ i ∈ Finset.range 3, ∑ j ∈ Finset.range 3,
    (kernel.getD i []).getD j 0
      * depth.pixel (replicate depth.rows ((y : Int) + (i : Int) - 1))
          (replicate depth.cols ((x : Int) + (j : Int) - 1))

/-- The mask `depth == 0`. -/
def isZero (depth : Mat) (y x : Nat) : Prop := depth.pixel y x = 0

/-- One erosion by the default `3 x 3` element with `BORDER_REPLICATE`: a cell
stays set when every cell of its neighbourhood is set. -/
def erodeOnce (rows cols : Nat) (mask : Nat → Nat → Prop) (y x : Nat) : Prop :=
  ∀ i j : Nat, i < 3 → j < 3 →
    mask (replicate rows ((y : Int) + (i : Int) - 1))
      (replicate cols ((x : Int) + (j : Int) - 1))

/-- The mask `no_readings`:
`cv::erode(depth == 0, no_readings, cv::Mat(), cv::Point(-1, -1), 2, 1, 1);`
(two iterations). -/
def no_readings (depth : Mat) : Nat → Nat → Prop :=
  erodeOnce depth.rows depth.cols (erodeOnce depth.rows depth.cols (isZero depth))

open Classical in
/-- The call `n.setTo(0, no_readings)` read at one cell. -/
noncomputable def setToZero (mask : Nat → Nat → Prop) (n : Nat → Nat → ℝ) (y x : Nat) : ℝ :=
  if mask y x then 0 else n y x

/-- The function `cv::norm` on a `Vec3f`. -/
noncomputable def norm (v : Vec3f) : ℝ := Real.sqrt (v.v0 ^ 2 + v.v1 ^ 2 + v.v2 ^ 2)

/-- The function `cv::normalize` on a `Vec3f`: `v * (nv ? 1./nv : 0.)` with
`nv = norm(v)`. -/
noncomputable def normalize (v : Vec3f) : Vec3f :=
  let scale : ℝ := if norm v ≠ 0 then 1 / norm v else 0
  { v0 := v.v0 * scale, v1 := v.v1 * scale, v2 := v.v2 * scale }

/-- The pixel `(y, x)` of the image returned by `ComputeNormalImage(depth)`:
channel 0 is `n1`, channel 1 is `n2`, channel 2 is
`1.0/this->focal_length_*depth`, and every pixel is normalized. -/
noncomputable def run (focal_length : ℝ) (depth : Mat) (y x : Nat) : Vec3f :=
  normalize
    { v0 := setToZero (no_readings depth) (filter2D f1m depth) y x,
      v1 := setToZero (no_readings depth) (filter2D f2m depth) y x,
      v2 := 1 / focal_length * depth.pixel y x }

end ComputeNormalImage

open ComputeSonarImage

/-! ## Loop lemmas shared by the proofs -/

/-- A loop that appends one computed entry per index builds the mapped range. -/
theorem foldl_push_eq_map {α : Type} (g : Nat → α) (n : Nat) (init : List α) :
    (List.range n).foldl (fun acc i => acc ++ [g i]) init
      = init ++ (List.range n).map g := by
  induction n with
  | zero => simp
  | succ k ih => simp [List.range_succ, List.foldl_append, ih]

/-! ## Quantizer lemmas -/

/-- Truncation leaves an integer value unchanged. -/
theorem static_cast_int_intCast (n : Int) : static_cast_int (n : ℚ) = n := by
  unfold static_cast_int
  split <;> simp

/-- The byte emitted for a cell whose scaled magnitude is the integer `n`. -/
theorem counts_of_int (g m : ℚ) (n : Int) (h : g * m = (n : ℚ)) :
    counts g m = static_cast_uchar (min UCHAR_MAX n) := by
  unfold counts Intensity
  rw [h, static_cast_int_intCast]

/-- The truncated scaled magnitude when the scaled magnitude is the integer `n`. -/
theorem Intensity_of_int (g m : ℚ) (n : Int) (h : g * m = (n : ℚ)) :
    Intensity g m = n := by
  unfold Intensity
  rw [h, static_cast_int_intCast]

/-! ## Loop invariants of `UpdatePointCloud` -/

namespace UpdatePointCloud

/-- The angle pushed for the cell `(j, i)`. -/
theorem cellStep_angles (sqrtFin : ℚ → ℚ) (atan2 : FloatVal → FloatVal → FloatVal)
    (width : Nat) (cloudAt : Nat → Nat → PointXYZI) (flag : Bool) (j : Nat)
    (st : LoopState) (i : Nat) :
    (cellStep sqrtFin atan2 width cloudAt flag j st i).azimuth_angles
      = if flag then st.azimuth_angles
        else st.azimuth_angles ++
          [FloatVal.neg (atan2 (cloudAt j (width - i - 1)).y (cloudAt j (width - i - 1)).x)] := by
  cases flag <;> simp [cellStep]

/-- When the iterator stands on cell `(j, i)`, the body leaves `stored` there
and touches no other cell. -/
theorem cellStep_image (sqrtFin : ℚ → ℚ) (atan2 : FloatVal → FloatVal → FloatVal)
    (width : Nat) (cloudAt : Nat → Nat → PointXYZI) (flag : Bool) (j : Nat)
    (st : LoopState) (i : Nat) (hit : st.iter_image = j * width + i) :
    (cellStep sqrtFin atan2 width cloudAt flag j st i).point_cloud_image_
      = Function.update st.point_cloud_image_ (j * width + i)
          (stored sqrtFin (cloudAt j (width - i - 1))) := by
  obtain ⟨image, angles, iter⟩ := st
  simp only at hit
  subst hit
  simp only [cellStep, stored, Function.update_same]
  by_cases hn : FloatVal.isnan (range sqrtFin (cloudAt j (width - i - 1))) = true
  · simp only [hn, if_true]
    rw [Function.update_idem]
  · simp only [hn]
    rfl

/-- Invariant of the inner loop after `n` columns of row `j`. -/
theorem row_invariant (sqrtFin : ℚ → ℚ) (atan2 : FloatVal → FloatVal → FloatVal)
    (width : Nat) (cloudAt : Nat → Nat → PointXYZI) (flag : Bool) (j : Nat)
    (st : LoopState) (hit : st.iter_image = j * width) (n : Nat) :
    ((List.range n).foldl (cellStep sqrtFin atan2 width cloudAt flag j) st).iter_image
        = j * width + n ∧
    (∀ i, i < n →
      ((List.range n).foldl (cellStep sqrtFin atan2 width cloudAt flag j) st).point_cloud_image_
          (j * width + i) = stored sqrtFin (cloudAt j (width - i - 1))) ∧
    (∀ k, k < j * width →
      ((List.range n).foldl (cellStep sqrtFin atan2 width cloudAt flag j) st).point_cloud_image_ k
          = st.point_cloud_image_ k) ∧
    ((List.range n).foldl (cellStep sqrtFin atan2 width cloudAt flag j) st).azimuth_angles
        = if flag then st.azimuth_angles
          else st.azimuth_angles ++ (List.range n).map (fun i =>
            FloatVal.neg (atan2 (cloudAt j (width - i - 1)).y (cloudAt j (width - i - 1)).x)) := by
  induction n with
  | zero => cases flag <;> simp [hit]
  | succ n ih =>
    obtain ⟨hiter, hcells, hbelow, hangles⟩ := ih
    rw [List.range_succ, List.foldl_append, List.foldl_cons, List.foldl_nil]
    refine ⟨?_, ?_, ?_, ?_⟩
    · show _ + 1 = _
      rw [hiter]; ring
    · intro i hi
      rw [cellStep_image _ _ _ _ _ _ _ _ hiter]
      by_cases hin : i = n
      · subst hin
        rw [Function.update_same]
      · rw [Function.update_noteq (by omega)]
        exact hcells i (by omega)
    · intro k hk
      rw [cellStep_image _ _ _ _ _ _ _ _ hiter, Function.update_noteq (by omega)]
      exact hbelow k hk
    · rw [cellStep_angles, hangles]
      cases flag <;> simp [List.range_succ]

/-- Invariant of the outer loop after `m` rows. -/
theorem rows_invariant (sqrtFin : ℚ → ℚ) (atan2 : FloatVal → FloatVal → FloatVal)
    (width : Nat) (cloudAt : Nat → Nat → PointXYZI) (flag : Bool)
    (st : LoopState) (hit : st.iter_image = 0) (m : Nat) :
    ((List.range m).foldl (rowLoop sqrtFin atan2 width cloudAt flag) st).iter_image
        = m * width ∧
    (∀ j i, j < m → i < width →
      ((List.range m).foldl (rowLoop sqrtFin atan2 width cloudAt flag) st).point_cloud_image_
          (j * width + i) = stored sqrtFin (cloudAt j (width - i - 1))) ∧
    (flag = true →
      ((List.range m).foldl (rowLoop sqrtFin atan2 width cloudAt flag) st).azimuth_angles
        = st.azimuth_angles) ∧
    (flag = false →
      ((List.range m).foldl (rowLoop sqrtFin atan2 width cloudAt flag) st).azimuth_angles.length
          = st.azimuth_angles.length + m * width ∧
      ∀ j i, j < m → i < width →
        ((List.range m).foldl (rowLoop sqrtFin atan2 width cloudAt flag) st).azimuth_angles[
            st.azimuth_angles.length + (j * width + i)]?
          = some (FloatVal.neg
              (atan2 (cloudAt j (width - i - 1)).y (cloudAt j (width - i - 1)).x))) := by
  induction m with
  | zero => simp [hit]
  | succ m ih =>
    obtain ⟨hiter, hcells, hkeep, hpush⟩ := ih
    rw [List.range_succ, List.foldl_append, List.foldl_cons, List.foldl_nil]
    obtain ⟨riter, rcells, rbelow, rangles⟩ :=
      row_invariant sqrtFin atan2 width cloudAt flag m
        ((List.range m).foldl (rowLoop sqrtFin atan2 width cloudAt flag) st) hiter width
    have hblock : ∀ j i, j < m → i < width → j * width + i < m * width := by
      intro j i hj hi
      calc j * width + i < j * width + width := by omega
        _ = (j + 1) * width := by ring
        _ ≤ m * width := Nat.mul_le_mul_right _ hj
    refine ⟨?_, ?_, ?_, ?_⟩
    · show (List.foldl (cellStep sqrtFin atan2 width cloudAt flag m) _ (List.range width)).iter_image = _
      rw [riter]; ring
    · intro j i hj hi
      show (List.foldl (cellStep sqrtFin atan2 width cloudAt flag m) _ (List.range width)).point_cloud_image_ _ = _
      by_cases hjm : j = m
      · subst hjm
        exact rcells i hi
      · rw [rbelow _ (hblock j i (by omega) hi)]
        exact hcells j i (by omega) hi
    · intro hflag
      show (List.foldl (cellStep sqrtFin atan2 width cloudAt flag m) _ (List.range width)).azimuth_angles = _
      rw [rangles, if_pos hflag]
      exact hkeep hflag
    · intro hflag
      obtain ⟨hlen, hentries⟩ := hpush hflag
      have hangles :
          (rowLoop sqrtFin atan2 width cloudAt flag
            ((List.range m).foldl (rowLoop sqrtFin atan2 width cloudAt flag) st) m).azimuth_angles
          = ((List.range m).foldl (rowLoop sqrtFin atan2 width cloudAt flag) st).azimuth_angles
            ++ (List.range width).map (fun i => FloatVal.neg
                (atan2 (cloudAt m (width - i - 1)).y (cloudAt m (width - i - 1)).x)) := by
        show (List.foldl (cellStep sqrtFin atan2 width cloudAt flag m) _ (List.range width)).azimuth_angles = _
        rw [rangles]
        simp [hflag]
      rw [hangles]
      refine ⟨?_, ?_⟩
      · rw [List.length_append, hlen, List.length_map, List.length_range]; ring
      · intro j i hj hi
        by_cases hjm : j = m
        · subst hjm
          rw [List.getElem?_append_right (by omega), hlen]
          have hidx : st.azimuth_angles.length + (j * width + i)
              - (st.azimuth_angles.length + j * width) = i := by omega
          rw [hidx, List.getElem?_map, List.getElem?_range hi]
          rfl
        · have hlt := hblock j i (by omega) hi
          rw [List.getElem?_append_left (by omega)]
          exact hentries j i (by omega) hi

/-- The range map after the callback: every cell of the `height x width`
matrix holds `stored` of the point read for it. -/
theorem run_image_cell (sqrtFin : ℚ → ℚ) (atan2 : FloatVal → FloatVal → FloatVal)
    (width height : Nat) (cloudAt : Nat → Nat → PointXYZI) (indeterminate : Bool)
    (m : Members) (j i : Nat) (hj : j < height) (hi : i < width) :
    (run sqrtFin atan2 width height cloudAt indeterminate m).point_cloud_image_
        (j * width + i) = stored sqrtFin (cloudAt j (width - i - 1)) :=
  (rows_invariant sqrtFin atan2 width cloudAt
    (calculationFlag m.azimuth_angles indeterminate)
    { point_cloud_image_ := m.point_cloud_image_,
      azimuth_angles := m.azimuth_angles, iter_image := 0 } rfl height).2.1 j i hj hi

/-- The azimuth vector after the first frame (the vector was empty): one
angle per cell of the matrix, row after row. -/
theorem run_angles_first_frame (sqrtFin : ℚ → ℚ)
    (atan2 : FloatVal → FloatVal → FloatVal) (width height : Nat)
    (cloudAt : Nat → Nat → PointXYZI) (indeterminate : Bool)
    (image : Nat → FloatVal) :
    (run sqrtFin atan2 width height cloudAt indeterminate
        { point_cloud_image_ := image, azimuth_angles := [] }).azimuth_angles.length
      = height * width ∧
    ∀ j i, j < height → i < width →
      (run sqrtFin atan2 width height cloudAt indeterminate
          { point_cloud_image_ := image, azimuth_angles := [] }).azimuth_angles[j * width + i]?
        = some (FloatVal.neg
            (atan2 (cloudAt j (width - i - 1)).y (cloudAt j (width - i - 1)).x)) := by
  have h := (rows_invariant sqrtFin atan2 width cloudAt false
    { point_cloud_image_ := image, azimuth_angles := [], iter_image := 0 } rfl height).2.2.2 rfl
  simp only [List.length_nil, Nat.zero_add] at h
  exact h

end UpdatePointCloud

/-! ## Loop invariants of the window loops -/

namespace Load

/-- Every raw window value is at least `0.08`, hence positive. -/
theorem windowValue_pos (nFreq f : Nat) : 0 < windowValue nFreq f := by
  unfold windowValue
  have hcos := Real.cos_le_one (2 * Real.pi * ((f : ℝ) + 1) / (nFreq : ℝ))
  nlinarith

/-- Invariant of the first window loop after `n` iterations. -/
theorem windowFill_invariant (nFreq : Nat) (fresh : Nat → ℝ) (n : Nat) :
    ((List.range n).foldl (windowFill nFreq)
        { window := fresh, windowSum := 0 }).windowSum
      = ∑ f ∈ Finset.range n, (windowValue nFreq f) ^ 2 ∧
    ∀ f, f < n →
      ((List.range n).foldl (windowFill nFreq)
        { window := fresh, windowSum := 0 }).window f = windowValue nFreq f := by
  induction n with
  | zero => simp
  | succ n ih =>
    obtain ⟨hsum, hval⟩ := ih
    rw [List.range_succ, List.foldl_append, List.foldl_cons, List.foldl_nil]
    refine ⟨?_, ?_⟩
    · simp only [windowFill, Function.update_same]
      rw [hsum, Finset.sum_range_succ]
    · intro f hf
      simp only [windowFill]
      by_cases hfn : f = n
      · subst hfn
        rw [Function.update_same]
      · rw [Function.update_noteq hfn]
        exact hval f (by omega)

/-- Invariant of the second window loop after `n` iterations. -/
theorem windowScale_invariant (windowSum : ℝ) (w0 : Nat → ℝ) (n : Nat) :
    (∀ f, f < n →
      ((List.range n).foldl (windowScale windowSum) w0) f = w0 f / Real.sqrt windowSum) ∧
    (∀ f, n ≤ f → ((List.range n).foldl (windowScale windowSum) w0) f = w0 f) := by
  induction n with
  | zero => simp
  | succ n ih =>
    obtain ⟨hdone, htodo⟩ := ih
    rw [List.range_succ, List.foldl_append, List.foldl_cons, List.foldl_nil]
    refine ⟨?_, ?_⟩
    · intro f hf
      simp only [windowScale]
      by_cases hfn : f = n
      · subst hfn
        rw [Function.update_same, htodo f (le_refl f)]
      · rw [Function.update_noteq hfn]
        exact hdone f (by omega)
    · intro f hf
      simp only [windowScale]
      rw [Function.update_noteq (by omega)]
      exact htodo f (by omega)

/-- The sum accumulated by the first loop is positive as soon as there is one
frequency bin. -/
theorem windowSum_pos (nFreq : Nat) (fresh : Nat → ℝ) (h : 1 ≤ nFreq) :
    0 < (windowFilled nFreq fresh).windowSum := by
  unfold windowFilled
  rw [(windowFill_invariant nFreq fresh nFreq).1]
  apply Finset.sum_pos
  · intro f _
    exact pow_pos (windowValue_pos nFreq f) 2
  · exact ⟨0, Finset.mem_range.mpr (by omega)⟩

/-- Every entry of the final window is the raw value over the root of the sum. -/
theorem window_entry (nFreq : Nat) (fresh : Nat → ℝ) (f : Nat) (hf : f < nFreq) :
    window nFreq fresh f
      = windowValue nFreq f / Real.sqrt (windowFilled nFreq fresh).windowSum := by
  unfold window
  rw [(windowScale_invariant _ _ nFreq).1 f hf]
  congr 1
  exact (windowFill_invariant nFreq fresh nFreq).2 f hf

end Load

/-! ## Loop invariants of `ComputeCorrector` -/

namespace ComputeCorrector

/-- The pattern of a beam with itself is the sinc at zero, which is `1`. -/
theorem azimuthBeamPattern_self (g : Geometry) (beam : Nat) :
    azimuthBeamPattern g beam beam = 1 := by
  simp [azimuthBeamPattern, unnormalized_sinc]

/-- Invariant of the inner loop of row `beam` after `n` columns. -/
theorem pair_invariant (g : Geometry) (beam : Nat) (c : Corrector) (n : Nat) :
    ((List.range n).foldl (pairStep g beam) c).beamCorrectorSum
      = c.beamCorrectorSum
        + ∑ o ∈ Finset.range n, (azimuthBeamPattern g beam o) ^ 2 ∧
    (∀ o, o < n →
      ((List.range n).foldl (pairStep g beam) c).beamCorrector beam o
        = |azimuthBeamPattern g beam o|) ∧
    (∀ b o, b ≠ beam →
      ((List.range n).foldl (pairStep g beam) c).beamCorrector b o = c.beamCorrector b o) := by
  induction n with
  | zero => simp
  | succ n ih =>
    obtain ⟨hsum, hrow, hother⟩ := ih
    rw [List.range_succ, List.foldl_append, List.foldl_cons, List.foldl_nil]
    refine ⟨?_, ?_, ?_⟩
    · simp only [pairStep]
      rw [hsum, Finset.sum_range_succ]
      ring
    · intro o ho
      simp only [pairStep, Function.update_same]
      by_cases hon : o = n
      · subst hon
        rw [Function.update_same]
      · rw [Function.update_noteq hon]
        exact hrow o (by omega)
    · intro b o hb
      simp only [pairStep]
      rw [Function.update_noteq hb]
      exact hother b o hb

/-- Invariant of the outer loop after `m` rows. -/
theorem beam_invariant (g : Geometry) (c : Corrector) (m : Nat) :
    ((List.range m).foldl (beamLoop g) c).beamCorrectorSum
      = c.beamCorrectorSum
        + ∑ b ∈ Finset.range m, ∑ o ∈ Finset.range g.nBeams,
            (azimuthBeamPattern g b o) ^ 2 ∧
    (∀ b o, b < m → o < g.nBeams →
      ((List.range m).foldl (beamLoop g) c).beamCorrector b o
        = |azimuthBeamPattern g b o|) := by
  induction m with
  | zero => simp
  | succ m ih =>
    obtain ⟨hsum, hdone⟩ := ih
    rw [List.range_succ, List.foldl_append, List.foldl_cons, List.foldl_nil]
    obtain ⟨psum, prow, pother⟩ :=
      pair_invariant g m ((List.range m).foldl (beamLoop g) c) g.nBeams
    refine ⟨?_, ?_⟩
    · show (List.foldl (pairStep g m) _ (List.range g.nBeams)).beamCorrectorSum = _
      rw [psum, hsum, Finset.sum_range_succ]
      ring
    · intro b o hb ho
      show (List.foldl (pairStep g m) _ (List.range g.nBeams)).beamCorrector b o = _
      by_cases hbm : b = m
      · subst hbm
        exact prow o ho
      · rw [pother b o hbm]
        exact hdone b o (by omega) ho

/-- The accumulated sum of squares is positive as soon as there is one beam. -/
theorem sum_of_squares_pos (g : Geometry) (h : 1 ≤ g.nBeams) :
    0 < ∑ b ∈ Finset.range g.nBeams, ∑ o ∈ Finset.range g.nBeams,
          (azimuthBeamPattern g b o) ^ 2 := by
  have h0 : (0 : Nat) ∈ Finset.range g.nBeams := Finset.mem_range.mpr (by omega)
  apply Finset.sum_pos'
  · intro b _
    exact Finset.sum_nonneg (fun o _ => sq_nonneg _)
  · refine ⟨0, h0, ?_⟩
    apply Finset.sum_pos'
    · intro o _
      exact sq_nonneg _
    · exact ⟨0, h0, by rw [azimuthBeamPattern_self]; norm_num⟩

/-- Started from a zero sum, `ComputeCorrector` leaves a positive sum when
there is at least one beam. -/
theorem run_sum_pos (g : Geometry) (c : Corrector) (h0 : c.beamCorrectorSum = 0)
    (h : 1 ≤ g.nBeams) : 0 < (run g c).beamCorrectorSum := by
  show 0 < Real.sqrt _
  rw [(beam_invariant g c g.nBeams).1, h0, zero_add]
  exact Real.sqrt_pos.mpr (sum_of_squares_pos g h)

end ComputeCorrector

/-! ## Renderer lemmas -/

/-- Truncation toward zero moves a value by less than one. -/
theorem static_cast_int_near (v : ℚ) : |(static_cast_int v : ℚ) - v| < 1 := by
  unfold static_cast_int
  split
  · have h1 := Int.floor_le v
    have h2 := Int.lt_floor_add_one v
    rw [abs_lt]
    constructor <;> linarith
  · have h1 := Int.le_ceil v
    have h2 := Int.ceil_lt_add_one v
    rw [abs_lt]
    constructor <;> linarith

/-- The renderer truncates the scaled magnitude as the quantizer does. -/
theorem intensity_eq_Intensity (g m : ℚ) : intensity g m = Intensity g m := rfl

/-- For a positive bin count that fits in `unsigned int`, the thickness is
twice the integer quotient. -/
theorem binThickness_eq_quotient (radius : Nat) (n : Int) (h0 : 0 < n)
    (h32 : n < 4294967296) :
    binThickness radius n = 2 * ((radius / n.toNat : Nat) : ℚ) := by
  unfold binThickness toUnsigned
  rw [Int.emod_eq_of_lt (le_of_lt h0) h32, Int.ceil_natCast, Int.cast_natCast]

/-! ## Lemmas on `ComputeNormalImage` -/

namespace ComputeNormalImage

/-- On an image whose cells all hold `c`, the first gradient filter gives `0`. -/
theorem filter2D_f1m_const (rows cols : Nat) (c : ℝ) (y x : Nat) :
    filter2D f1m (Mat.mk rows cols (fun _ _ => c)) y x = 0 := by
  simp [filter2D, f1m, f1, Finset.sum_range_succ]
  ring

/-- On an image whose cells all hold `c`, the second gradient filter gives `0`. -/
theorem filter2D_f2m_const (rows cols : Nat) (c : ℝ) (y x : Nat) :
    filter2D f2m (Mat.mk rows cols (fun _ _ => c)) y x = 0 := by
  simp [filter2D, f2m, f2, Finset.sum_range_succ]
  ring

/-- On an image whose cells all hold `c`, both gradient channels are `0`
whatever the mask, so the pixel before normalization is `(0, 0, c / f)`. -/
theorem run_const (focal_length : ℝ) (rows cols : Nat) (c : ℝ) (y x : Nat) :
    run focal_length (Mat.mk rows cols (fun _ _ => c)) y x
      = normalize (Vec3f.mk 0 0 (1 / focal_length * c)) := by
  unfold run setToZero
  rw [filter2D_f1m_const, filter2D_f2m_const]
  simp

/-- Normalization of a vector along the third axis with a positive entry. -/
theorem normalize_third_axis (t : ℝ) (ht : 0 < t) :
    normalize (Vec3f.mk 0 0 t) = Vec3f.mk 0 0 1 := by
  have hn : norm (Vec3f.mk 0 0 t) = t := by
    unfold norm
    simp [Real.sqrt_sq (le_of_lt ht)]
  unfold normalize
  rw [hn]
  simp [ne_of_gt ht]

/-- The zero vector is left as it is by the normalization. -/
theorem normalize_zero : normalize (Vec3f.mk 0 0 0) = Vec3f.mk 0 0 0 := by
  simp [normalize]

/-- On an image whose cells all hold `0`, the value the mask `no_readings`
tests for, every normal is the zero vector. -/
theorem run_zero_map (focal_length : ℝ) (rows cols y x : Nat) :
    run focal_length (Mat.mk rows cols (fun _ _ => 0)) y x = Vec3f.mk 0 0 0 := by
  rw [run_const, mul_zero]
  exact normalize_zero

end ComputeNormalImage

/-! ## C1 -/

/-- C1: in exact arithmetic, for positive sound speed and bandwidth and every
index `i` with `i + 1 < nFreq`, the range vector built by `Load` has entries
`i` and `i + 1`, their difference is `soundSpeed / (2 * bandwidth)`, and
entry `0` is `0`. -/
theorem rangeVector_step {K : Type} [LinearOrderedField K] [FloorRing K]
    (maxDistance soundSpeed bandwidth : K) (i : Nat)
    (hs : 0 < soundSpeed) (hb : 0 < bandwidth)
    (hi : ((i + 1 : Nat) : Int) < Load.nFreq maxDistance soundSpeed bandwidth) :
    ∃ a b : K,
      (Load.rangeVector maxDistance soundSpeed bandwidth)[i]? = some a ∧
      (Load.rangeVector maxDistance soundSpeed bandwidth)[i + 1]? = some b ∧
      b - a = soundSpeed / (2 * bandwidth) ∧
      (Load.rangeVector maxDistance soundSpeed bandwidth)[0]? = some 0 := by
  have hn : i + 1 < (Load.nFreq maxDistance soundSpeed bandwidth).toNat := by
    omega
  have hb0 : bandwidth ≠ 0 := ne_of_gt hb
  have hs0 : soundSpeed ≠ 0 := ne_of_gt hs
  refine ⟨Load.delta_t bandwidth * (i : K) * soundSpeed / 2,
    Load.delta_t bandwidth * ((i + 1 : Nat) : K) * soundSpeed / 2, ?_, ?_, ?_, ?_⟩
  · simp only [Load.rangeVector, foldl_push_eq_map, List.nil_append]
    rw [List.getElem?_map, List.getElem?_range (by omega)]
    rfl
  · simp only [Load.rangeVector, foldl_push_eq_map, List.nil_append]
    rw [List.getElem?_map, List.getElem?_range hn]
    rfl
  · simp only [Load.delta_t]
    push_cast
    field_simp
    ring
  · simp only [Load.rangeVector, foldl_push_eq_map, List.nil_append]
    rw [List.getElem?_map, List.getElem?_range (by omega)]
    simp

/-- Witness for C1: `maxDistance = 1`, `soundSpeed = 2`, `bandwidth = 3`
(so `nFreq = 3`) at index `1`. -/
theorem rangeVector_step_witness :
    ∃ a b : ℚ,
      (Load.rangeVector (1 : ℚ) 2 3)[1]? = some a ∧
      (Load.rangeVector (1 : ℚ) 2 3)[1 + 1]? = some b ∧
      b - a = (2 : ℚ) / (2 * 3) ∧
      (Load.rangeVector (1 : ℚ) 2 3)[0]? = some 0 :=
  rangeVector_step (1 : ℚ) 2 3 1 (by norm_num) (by norm_num)
    (by norm_num [Load.nFreq, Load.delta_f, Load.max_T])

/-! ## C2 -/

/-- C2: for a sensor with at least one beam, the first `ComputeSonarImage`
call after `Load` runs `ComputeCorrector` and leaves a non-zero
`beamCorrectorSum`; the guard of the lazy initialization is then false, so a
second call (on the same geometry, or on any other) returns the corrector
members unchanged: every entry of `beamCorrector` and `beamCorrectorSum`. -/
theorem corrector_computed_once (g : Geometry) (fresh : Nat → Nat → ℝ)
    (h : 1 ≤ g.nBeams) :
    ComputeSonarImage.corrector g (Load.corrector fresh)
      = ComputeCorrector.run g (Load.corrector fresh) ∧
    (ComputeSonarImage.corrector g (Load.corrector fresh)).beamCorrectorSum ≠ 0 ∧
    ComputeSonarImage.corrector g (ComputeSonarImage.corrector g (Load.corrector fresh))
      = ComputeSonarImage.corrector g (Load.corrector fresh) ∧
    ∀ g2 : Geometry,
      ComputeSonarImage.corrector g2 (ComputeSonarImage.corrector g (Load.corrector fresh))
        = ComputeSonarImage.corrector g (Load.corrector fresh) := by
  have hfirst : ComputeSonarImage.corrector g (Load.corrector fresh)
      = ComputeCorrector.run g (Load.corrector fresh) := by
    unfold ComputeSonarImage.corrector
    exact if_pos rfl
  have hne : (ComputeSonarImage.corrector g (Load.corrector fresh)).beamCorrectorSum ≠ 0 := by
    rw [hfirst]
    exact ne_of_gt (ComputeCorrector.run_sum_pos g (Load.corrector fresh) rfl h)
  have hkeep : ∀ g2 : Geometry,
      ComputeSonarImage.corrector g2 (ComputeSonarImage.corrector g (Load.corrector fresh))
        = ComputeSonarImage.corrector g (Load.corrector fresh) := by
    intro g2
    generalize ComputeSonarImage.corrector g (Load.corrector fresh) = c1 at hne
    unfold ComputeSonarImage.corrector
    rw [if_neg hne]
  exact ⟨hfirst, hne, hkeep g, hkeep⟩

/-- Witness for C2: one beam at azimuth `0`, field of view `1`. -/
theorem corrector_computed_once_witness :
    ComputeSonarImage.corrector (Geometry.mk 1 1 1 [0]) (Load.corrector (fun _ _ => 0))
      = ComputeCorrector.run (Geometry.mk 1 1 1 [0]) (Load.corrector (fun _ _ => 0)) ∧
    (ComputeSonarImage.corrector (Geometry.mk 1 1 1 [0])
      (Load.corrector (fun _ _ => 0))).beamCorrectorSum ≠ 0 ∧
    ComputeSonarImage.corrector (Geometry.mk 1 1 1 [0])
        (ComputeSonarImage.corrector (Geometry.mk 1 1 1 [0]) (Load.corrector (fun _ _ => 0)))
      = ComputeSonarImage.corrector (Geometry.mk 1 1 1 [0]) (Load.corrector (fun _ _ => 0)) ∧
    ∀ g2 : Geometry,
      ComputeSonarImage.corrector g2
          (ComputeSonarImage.corrector (Geometry.mk 1 1 1 [0]) (Load.corrector (fun _ _ => 0)))
        = ComputeSonarImage.corrector (Geometry.mk 1 1 1 [0]) (Load.corrector (fun _ _ => 0)) :=
  corrector_computed_once (Geometry.mk 1 1 1 [0]) (fun _ _ => 0) (le_refl 1)

/-! ## C3 -/

/-- Comparing a `float` with itself gives true unless it is NaN. -/
theorem FloatVal.eq_self (v : FloatVal) : FloatVal.eq v v = !(FloatVal.isnan v) := by
  cases v <;> simp [FloatVal.eq, FloatVal.isnan]

/-- The mean of two finite angles is a finite number. -/
theorem FloatVal.mean_finite (u v : FloatVal) (hu : FloatVal.isfinite u = true)
    (hv : FloatVal.isfinite v = true) :
    FloatVal.isnan (FloatVal.div (FloatVal.add u v) (FloatVal.fin 2)) = false := by
  cases u <;> cases v <;>
    simp [FloatVal.isfinite, FloatVal.add, FloatVal.div, FloatVal.isnan] at hu hv ⊢

/-- Unfolding of the sector loop by one beam. -/
theorem angles_loop_succ (nBeams : Nat) (az : List FloatVal) (k : Nat) :
    (List.range (k + 1)).foldl (anglesStep nBeams az) []
      = anglesStep nBeams az ((List.range k).foldl (anglesStep nBeams az) []) k := by
  simp [List.range_succ, List.foldl_append]

/-- Every iteration of the sector loop pushes exactly one entry: its `begin`
is, from the second beam on, the `end_` of the entry at index `b - 1`, and
its `end_` is, for every beam but the last, the mean of the azimuths of beams
`b + 1` and `b`. -/
theorem anglesStep_push (nBeams : Nat) (az : List FloatVal)
    (acc : List BearingEntry) (b : Nat) :
    ∃ e : BearingEntry, anglesStep nBeams az acc b = acc ++ [e] ∧
      (b ≠ 0 → e.begin
        = (acc.getD (b - 1) (BearingEntry.mk FloatVal.nan FloatVal.nan FloatVal.nan)).end_) ∧
      (b + 1 < nBeams → e.end_
        = FloatVal.div (FloatVal.add (az.getD (b + 1) FloatVal.nan) (az.getD b FloatVal.nan))
            (FloatVal.fin 2)) := by
  unfold anglesStep
  by_cases h0 : b = 0
  · simp [h0]
  · by_cases h1 : (b : Int) = (nBeams : Int) - 1
    · have hlast : ¬ b + 1 < nBeams := by omega
      simp [h0, h1, hlast]
    · simp [h0, h1]

/-- Invariant of the sector loop after `k` beams: `k` entries, every entry
but that of the last beam ending at the mean of two azimuths, and every entry
but the first beginning with a copy of the `end_` of the entry before it. -/
theorem angles_loop_invariant (nBeams : Nat) (az : List FloatVal) (k : Nat) :
    ((List.range k).foldl (anglesStep nBeams az) []).length = k ∧
    (∀ b, b < k → b + 1 < nBeams → ∃ e : BearingEntry,
      ((List.range k).foldl (anglesStep nBeams az) [])[b]? = some e ∧
      e.end_ = FloatVal.div
        (FloatVal.add (az.getD (b + 1) FloatVal.nan) (az.getD b FloatVal.nan))
        (FloatVal.fin 2)) ∧
    ∀ b, b + 1 < k → ∃ e1 e2 : BearingEntry,
      ((List.range k).foldl (anglesStep nBeams az) [])[b]? = some e1 ∧
      ((List.range k).foldl (anglesStep nBeams az) [])[b + 1]? = some e2 ∧
      e2.begin = e1.end_ := by
  induction k with
  | zero => simp
  | succ k ih =>
    obtain ⟨hlen, hends, hadj⟩ := ih
    obtain ⟨e, he, hbegin, hend⟩ :=
      anglesStep_push nBeams az ((List.range k).foldl (anglesStep nBeams az) []) k
    rw [angles_loop_succ, he]
    refine ⟨by simp [hlen], ?_, ?_⟩
    · intro b hb hbn
      by_cases hbk : b = k
      · subst hbk
        refine ⟨e, ?_, hend hbn⟩
        rw [List.getElem?_append_right (by omega)]
        simp [hlen]
      · obtain ⟨e0, h0, hend0⟩ := hends b (by omega) hbn
        refine ⟨e0, ?_, hend0⟩
        rw [List.getElem?_append_left (by omega)]
        exact h0
    · intro b hb
      by_cases hlast : b + 1 = k
      · have hb_lt : b < ((List.range k).foldl (anglesStep nBeams az) []).length := by
          omega
        have hk : k ≠ 0 := by omega
        have hkb : k - 1 = b := by omega
        refine ⟨((List.range k).foldl (anglesStep nBeams az) [])[b], e, ?_, ?_, ?_⟩
        · rw [List.getElem?_append_left hb_lt, List.getElem?_eq_getElem hb_lt]
        · rw [List.getElem?_append_right (by omega)]
          simp [hlen, hlast]
        · rw [hbegin hk, hkb, List.getD_eq_getElem _ _ hb_lt]
      · obtain ⟨e1, e2, h1, h2, h12⟩ := hadj b (by omega)
        refine ⟨e1, e2, ?_, ?_, h12⟩
        · rw [List.getElem?_append_left (by omega)]
          exact h1
        · rw [List.getElem?_append_left (by omega)]
          exact h2

/-- The two facts of the invariant for a pair of adjacent beams of the
finished vector. -/
theorem angles_adjacent (nBeams : Nat) (az : List FloatVal) (b : Nat)
    (hb : b + 1 < nBeams) :
    ∃ e1 e2 : BearingEntry,
      (angles nBeams az)[b]? = some e1 ∧ (angles nBeams az)[b + 1]? = some e2 ∧
      e2.begin = e1.end_ ∧
      e1.end_ = FloatVal.div
        (FloatVal.add (az.getD (b + 1) FloatVal.nan) (az.getD b FloatVal.nan))
        (FloatVal.fin 2) := by
  obtain ⟨_, hends, hadj⟩ := angles_loop_invariant nBeams az nBeams
  obtain ⟨e1, e2, h1, h2, h12⟩ := hadj b hb
  obtain ⟨e, h, hend⟩ := hends b (by omega) hb
  have he : e = e1 := Option.some.inj (h.symm.trans h1)
  subst he
  exact ⟨e, e2, h1, h2, h12, hend⟩

/-- C3 (as amended): for every beam count and every sequence of azimuth
angles, the sector vector built in `ComputeSonarImage` has `nBeams` entries
and, for every `b` with `b + 1 < nBeams` (which needs `nBeams >= 2`),
`angles[b+1].begin` is a copy of `angles[b].end`, the mean of the azimuths of
beams `b + 1` and `b`; the comparison `angles[b].end == angles[b+1].begin` is
true exactly when that value is not NaN, and so whenever the two azimuths are
finite numbers. -/
theorem angles_adjacent_share_boundary (nBeams : Nat) (azimuth_angles : List FloatVal)
    (b : Nat) (hb : b + 1 < nBeams) :
    (ComputeSonarImage.angles nBeams azimuth_angles).length = nBeams ∧
    ∃ e1 e2 : ComputeSonarImage.BearingEntry,
      (ComputeSonarImage.angles nBeams azimuth_angles)[b]? = some e1 ∧
      (ComputeSonarImage.angles nBeams azimuth_angles)[b + 1]? = some e2 ∧
      e2.begin = e1.end_ ∧
      e1.end_ = FloatVal.div
        (FloatVal.add (azimuth_angles.getD (b + 1) FloatVal.nan)
          (azimuth_angles.getD b FloatVal.nan))
        (FloatVal.fin 2) ∧
      FloatVal.eq e1.end_ e2.begin = !(FloatVal.isnan e1.end_) ∧
      (FloatVal.isfinite (azimuth_angles.getD b FloatVal.nan) = true →
        FloatVal.isfinite (azimuth_angles.getD (b + 1) FloatVal.nan) = true →
        FloatVal.eq e1.end_ e2.begin = true) := by
  refine ⟨(angles_loop_invariant nBeams azimuth_angles nBeams).1, ?_⟩
  obtain ⟨e1, e2, h1, h2, hcopy, hend⟩ := angles_adjacent nBeams azimuth_angles b hb
  refine ⟨e1, e2, h1, h2, hcopy, hend, ?_, ?_⟩
  · rw [hcopy, FloatVal.eq_self]
  · intro hfb hfb1
    rw [hcopy, FloatVal.eq_self, hend, FloatVal.mean_finite _ _ hfb1 hfb]
    rfl

/-- Witness for C3 (as amended): three beams at azimuths `1, 2, 4`, boundary
between beams `1` and `2`. -/
theorem angles_adjacent_share_boundary_witness :
    (ComputeSonarImage.angles 3
      [FloatVal.fin 1, FloatVal.fin 2, FloatVal.fin 4]).length = 3 ∧
    ∃ e1 e2 : ComputeSonarImage.BearingEntry,
      (ComputeSonarImage.angles 3
        [FloatVal.fin 1, FloatVal.fin 2, FloatVal.fin 4])[1]? = some e1 ∧
      (ComputeSonarImage.angles 3
        [FloatVal.fin 1, FloatVal.fin 2, FloatVal.fin 4])[1 + 1]? = some e2 ∧
      e2.begin = e1.end_ ∧
      e1.end_ = FloatVal.div
        (FloatVal.add
          ([FloatVal.fin 1, FloatVal.fin 2, FloatVal.fin 4].getD (1 + 1) FloatVal.nan)
          ([FloatVal.fin 1, FloatVal.fin 2, FloatVal.fin 4].getD 1 FloatVal.nan))
        (FloatVal.fin 2) ∧
      FloatVal.eq e1.end_ e2.begin = !(FloatVal.isnan e1.end_) ∧
      (FloatVal.isfinite
          ([FloatVal.fin 1, FloatVal.fin 2, FloatVal.fin 4].getD 1 FloatVal.nan) = true →
        FloatVal.isfinite
          ([FloatVal.fin 1, FloatVal.fin 2, FloatVal.fin 4].getD (1 + 1) FloatVal.nan) = true →
        FloatVal.eq e1.end_ e2.begin = true) :=
  angles_adjacent_share_boundary 3 [FloatVal.fin 1, FloatVal.fin 2, FloatVal.fin 4] 1
    (by decide)

/-- Counterexample to C3 as stated: for two beams whose azimuths are `1` and
NaN (the angle stored for a NaN point), `angles[0].end` and `angles[1].begin`
are both NaN and the comparison `angles[0].end == angles[1].begin` is false. -/
theorem angles_nan_boundary_not_equal :
    ∃ e1 e2 : ComputeSonarImage.BearingEntry,
      (ComputeSonarImage.angles 2 [FloatVal.fin 1, FloatVal.nan])[0]? = some e1 ∧
      (ComputeSonarImage.angles 2 [FloatVal.fin 1, FloatVal.nan])[0 + 1]? = some e2 ∧
      e1.end_ = FloatVal.nan ∧ e2.begin = FloatVal.nan ∧
      FloatVal.eq e1.end_ e2.begin = false := by
  obtain ⟨e1, e2, h1, h2, hcopy, hend⟩ :=
    angles_adjacent 2 [FloatVal.fin 1, FloatVal.nan] 0 (by decide)
  have hnan : e1.end_ = FloatVal.nan := by
    rw [hend]
    simp [FloatVal.add, FloatVal.div]
  refine ⟨e1, e2, h1, h2, hnan, by rw [hcopy, hnan], ?_⟩
  rw [hcopy, hnan]
  rfl

/-! ## C4 -/

/-- C5: over the reals, for every `nFreq >= 1`, the divisor `sqrt(windowSum)`
of the window built by `Load` is not zero and the squares of the `nFreq`
window entries add up to exactly `1`. -/
theorem window_unit_energy (nFreq : Nat) (fresh : Nat → ℝ) (h : 1 ≤ nFreq) :
    Real.sqrt (Load.windowFilled nFreq fresh).windowSum ≠ 0 ∧
    ∑ f ∈ Finset.range nFreq, (Load.window nFreq fresh f) ^ 2 = 1 := by
  have hpos := Load.windowSum_pos nFreq fresh h
  have hsqrt : Real.sqrt (Load.windowFilled nFreq fresh).windowSum ≠ 0 :=
    ne_of_gt (Real.sqrt_pos.mpr hpos)
  refine ⟨hsqrt, ?_⟩
  have hentry : ∀ f ∈ Finset.range nFreq,
      (Load.window nFreq fresh f) ^ 2
        = (Load.windowValue nFreq f) ^ 2 / (Load.windowFilled nFreq fresh).windowSum := by
    intro f hf
    rw [Load.window_entry nFreq fresh f (Finset.mem_range.mp hf), div_pow,
      Real.sq_sqrt (le_of_lt hpos)]
  rw [Finset.sum_congr rfl hentry, ← Finset.sum_div]
  have hsum : (Load.windowFilled nFreq fresh).windowSum
      = ∑ f ∈ Finset.range nFreq, (Load.windowValue nFreq f) ^ 2 :=
    (Load.windowFill_invariant nFreq fresh nFreq).1
  rw [← hsum]
  exact div_self (ne_of_gt hpos)

/-- Witness for C5: a window of two bins. -/
theorem window_unit_energy_witness :
    Real.sqrt (Load.windowFilled 2 (fun _ => 0)).windowSum ≠ 0 ∧
    ∑ f ∈ Finset.range 2, (Load.window 2 (fun _ => 0) f) ^ 2 = 1 :=
  window_unit_energy 2 (fun _ => 0) (by decide)

/-! ## C6 -/

/-- C6 (as amended): after `UpdatePointCloud`, the RangeMap cell of a point
whose computed range is NaN holds exactly the sentinel `100000`; the cell of
every other point holds the computed range, be it finite or infinite. -/
theorem rangeMap_sentinel_only_for_nan (sqrtFin : ℚ → ℚ)
    (atan2 : FloatVal → FloatVal → FloatVal) (width height : Nat)
    (cloudAt : Nat → Nat → PointXYZI) (indeterminate : Bool)
    (m : UpdatePointCloud.Members) (j i : Nat) (hj : j < height) (hi : i < width) :
    (FloatVal.isnan (UpdatePointCloud.range sqrtFin (cloudAt j (width - i - 1))) = true →
      (UpdatePointCloud.run sqrtFin atan2 width height cloudAt indeterminate m).point_cloud_image_
          (j * width + i) = FloatVal.fin 100000) ∧
    (FloatVal.isfinite (UpdatePointCloud.range sqrtFin (cloudAt j (width - i - 1))) = true →
      (UpdatePointCloud.run sqrtFin atan2 width height cloudAt indeterminate m).point_cloud_image_
          (j * width + i) = UpdatePointCloud.range sqrtFin (cloudAt j (width - i - 1))) ∧
    (∀ negative : Bool,
      UpdatePointCloud.range sqrtFin (cloudAt j (width - i - 1)) = FloatVal.inf negative →
      (UpdatePointCloud.run sqrtFin atan2 width height cloudAt indeterminate m).point_cloud_image_
          (j * width + i) = FloatVal.inf negative) := by
  rw [UpdatePointCloud.run_image_cell sqrtFin atan2 width height cloudAt indeterminate
    m j i hj hi]
  unfold UpdatePointCloud.stored
  refine ⟨?_, ?_, ?_⟩
  · intro h
    rw [if_pos h]
    rfl
  · intro h
    cases hr : UpdatePointCloud.range sqrtFin (cloudAt j (width - i - 1)) with
    | fin v => simp [FloatVal.isnan]
    | inf negative => rw [hr] at h; simp [FloatVal.isfinite] at h
    | nan => rw [hr] at h; simp [FloatVal.isfinite] at h
  · intro negative h
    rw [h]
    simp [FloatVal.isnan]

/-- Witness for C6 (as amended): a `1 x 1` sensor whose point is
`(3, 4, 0)`, with the integer square root for `sqrtFin`. -/
theorem rangeMap_sentinel_only_for_nan_witness :
    (FloatVal.isnan (UpdatePointCloud.range (fun v => (Nat.sqrt (Int.floor v).toNat : ℚ))
        ((fun _ _ => PointXYZI.mk (FloatVal.fin 3) (FloatVal.fin 4) (FloatVal.fin 0)
          (FloatVal.fin 0)) 0 (1 - 0 - 1))) = true →
      (UpdatePointCloud.run (fun v => (Nat.sqrt (Int.floor v).toNat : ℚ)) (fun y _ => y) 1 1
        (fun _ _ => PointXYZI.mk (FloatVal.fin 3) (FloatVal.fin 4) (FloatVal.fin 0)
          (FloatVal.fin 0)) false
        (UpdatePointCloud.Members.mk (fun _ => FloatVal.fin 0) [])).point_cloud_image_
          (0 * 1 + 0) = FloatVal.fin 100000) ∧
    (FloatVal.isfinite (UpdatePointCloud.range (fun v => (Nat.sqrt (Int.floor v).toNat : ℚ))
        ((fun _ _ => PointXYZI.mk (FloatVal.fin 3) (FloatVal.fin 4) (FloatVal.fin 0)
          (FloatVal.fin 0)) 0 (1 - 0 - 1))) = true →
      (UpdatePointCloud.run (fun v => (Nat.sqrt (Int.floor v).toNat : ℚ)) (fun y _ => y) 1 1
        (fun _ _ => PointXYZI.mk (FloatVal.fin 3) (FloatVal.fin 4) (FloatVal.fin 0)
          (FloatVal.fin 0)) false
        (UpdatePointCloud.Members.mk (fun _ => FloatVal.fin 0) [])).point_cloud_image_
          (0 * 1 + 0)
        = UpdatePointCloud.range (fun v => (Nat.sqrt (Int.floor v).toNat : ℚ))
            ((fun _ _ => PointXYZI.mk (FloatVal.fin 3) (FloatVal.fin 4) (FloatVal.fin 0)
              (FloatVal.fin 0)) 0 (1 - 0 - 1))) ∧
    (∀ negative : Bool,
      UpdatePointCloud.range (fun v => (Nat.sqrt (Int.floor v).toNat : ℚ))
        ((fun _ _ => PointXYZI.mk (FloatVal.fin 3) (FloatVal.fin 4) (FloatVal.fin 0)
          (FloatVal.fin 0)) 0 (1 - 0 - 1)) = FloatVal.inf negative →
      (UpdatePointCloud.run (fun v => (Nat.sqrt (Int.floor v).toNat : ℚ)) (fun y _ => y) 1 1
        (fun _ _ => PointXYZI.mk (FloatVal.fin 3) (FloatVal.fin 4) (FloatVal.fin 0)
          (FloatVal.fin 0)) false
        (UpdatePointCloud.Members.mk (fun _ => FloatVal.fin 0) [])).point_cloud_image_
          (0 * 1 + 0) = FloatVal.inf negative) :=
  rangeMap_sentinel_only_for_nan (fun v => (Nat.sqrt (Int.floor v).toNat : ℚ))
    (fun y _ => y) 1 1
    (fun _ _ => PointXYZI.mk (FloatVal.fin 3) (FloatVal.fin 4) (FloatVal.fin 0)
      (FloatVal.fin 0)) false
    (UpdatePointCloud.Members.mk (fun _ => FloatVal.fin 0) []) 0 0 (by decide) (by decide)

/-- Counterexample to C6 as stated: for a `1 x 1` sensor whose point is
`(+inf, 0, 0)` the computed range is `+inf`, which is not a finite number, and
the RangeMap cell holds `+inf`, not the sentinel `100000`. -/
theorem rangeMap_infinite_range_kept :
    (∀ (sqrtFin : ℚ → ℚ) (atan2 : FloatVal → FloatVal → FloatVal) (indeterminate : Bool)
        (m : UpdatePointCloud.Members),
      UpdatePointCloud.range sqrtFin
          (PointXYZI.mk (FloatVal.inf false) (FloatVal.fin 0) (FloatVal.fin 0) (FloatVal.fin 0))
        = FloatVal.inf false ∧
      (UpdatePointCloud.run sqrtFin atan2 1 1
          (fun _ _ => PointXYZI.mk (FloatVal.inf false) (FloatVal.fin 0) (FloatVal.fin 0)
            (FloatVal.fin 0)) indeterminate m).point_cloud_image_ (0 * 1 + 0)
        = FloatVal.inf false) ∧
    FloatVal.isfinite (FloatVal.inf false) = false ∧
    FloatVal.inf false ≠ FloatVal.fin 100000 := by
  refine ⟨?_, rfl, by decide⟩
  intro sqrtFin atan2 indeterminate m
  have hr : UpdatePointCloud.range sqrtFin
      (PointXYZI.mk (FloatVal.inf false) (FloatVal.fin 0) (FloatVal.fin 0) (FloatVal.fin 0))
      = FloatVal.inf false := by
    simp [UpdatePointCloud.range, FloatVal.mul, FloatVal.add, FloatVal.sqrt]
  refine ⟨hr, ?_⟩
  rw [UpdatePointCloud.run_image_cell sqrtFin atan2 1 1 _ indeterminate m 0 0
    (by decide) (by decide)]
  simp only [UpdatePointCloud.stored, hr]
  rfl

/-! ## C7 -/

/-- The quantizer loops, unfolded by one frequency bin: the bin appends one
byte per beam, in beam order. -/
theorem intensities_succ (g : ℚ) (absP : Nat → Nat → ℚ) (nBeams k : Nat) :
    intensities g absP nBeams (k + 1)
      = intensities g absP nBeams k
          ++ (List.range nBeams).map (fun beam => counts g (absP beam k)) := by
  simp only [intensities, List.range_succ, List.foldl_append, List.foldl_cons,
    List.foldl_nil]
  exact foldl_push_eq_map (fun beam => counts g (absP beam k)) nBeams _

/-- Length of the byte sequence after `k` frequency bins. -/
theorem intensities_length (g : ℚ) (absP : Nat → Nat → ℚ) (nBeams k : Nat) :
    (intensities g absP nBeams k).length = k * nBeams := by
  induction k with
  | zero => simp [intensities]
  | succ k ih => rw [intensities_succ, List.length_append, ih]; simp; ring

/-- Position of the byte of cell `(b, f)` after `k > f` frequency bins. -/
theorem intensities_getElem (g : ℚ) (absP : Nat → Nat → ℚ) (nBeams k : Nat)
    (b f : Nat) (hb : b < nBeams) (hf : f < k) :
    (intensities g absP nBeams k)[f * nBeams + b]? = some (counts g (absP b f)) := by
  induction k with
  | zero => omega
  | succ k ih =>
    rw [intensities_succ]
    by_cases hfk : f < k
    · have hlt : f * nBeams + b < (intensities g absP nBeams k).length := by
        rw [intensities_length]
        calc f * nBeams + b < f * nBeams + nBeams := by omega
          _ = (f + 1) * nBeams := by ring
          _ ≤ k * nBeams := Nat.mul_le_mul_right _ hfk
      rw [List.getElem?_append_left hlt]
      exact ih hfk
    · have hfeq : f = k := by omega
      subst hfeq
      rw [List.getElem?_append_right (by rw [intensities_length]; omega),
        intensities_length]
      simp [hb]

/-- C7 (as amended): the quantized sequence has length `nBeams * nFreq` and
holds the byte of cell `(b, f)` at position `f * nBeams + b`
(frequency-major, beam-minor order). -/
theorem intensities_frequency_major (sensorGain : ℚ) (absP : Nat → Nat → ℚ)
    (nBeams nFreq b f : Nat) (hb : b < nBeams) (hf : f < nFreq) :
    (ComputeSonarImage.intensities sensorGain absP nBeams nFreq).length
        = nBeams * nFreq ∧
    (ComputeSonarImage.intensities sensorGain absP nBeams nFreq)[f * nBeams + b]?
        = some (ComputeSonarImage.counts sensorGain (absP b f)) :=
  ⟨by rw [intensities_length, Nat.mul_comm],
   intensities_getElem sensorGain absP nBeams nFreq b f hb hf⟩

/-- Witness for C7 (as amended): two beams, two bins, cell `(0, 1)`. -/
theorem intensities_frequency_major_witness :
    (ComputeSonarImage.intensities 1 (fun b f => 10 * (b : ℚ) + f) 2 2).length
        = 2 * 2 ∧
    (ComputeSonarImage.intensities 1 (fun b f => 10 * (b : ℚ) + f) 2 2)[1 * 2 + 0]?
        = some (ComputeSonarImage.counts 1
            ((fun (b f : Nat) => 10 * (b : ℚ) + f) 0 1)) :=
  intensities_frequency_major 1 (fun b f => 10 * (b : ℚ) + f) 2 2 0 1
    (by decide) (by decide)

/-- Counterexample to C7 as stated: with two beams and two bins whose cells
`(b, f)` hold the magnitude `10 * b + f` (gain `1`), position `0 * nFreq + 1`
holds the byte of cell `(1, 0)`, which is `10`, and not the byte of cell
`(0, 1)`, which is `1`. -/
theorem intensities_not_beam_major :
    (intensities 1 (fun b f => 10 * (b : ℚ) + f) 2 2)[0 * 2 + 1]? = some 10 ∧
    counts 1 ((fun (b f : Nat) => 10 * (b : ℚ) + f) 0 1) = 1 ∧
    (intensities 1 (fun b f => 10 * (b : ℚ) + f) 2 2)[0 * 2 + 1]?
      ≠ some (counts 1 ((fun (b f : Nat) => 10 * (b : ℚ) + f) 0 1)) := by
  have h10 : counts 1 ((fun (b f : Nat) => 10 * (b : ℚ) + f) 1 0) = 10 := by
    have hv : (1 : ℚ) * ((fun (b f : Nat) => 10 * (b : ℚ) + f) 1 0) = ((10 : Int) : ℚ) := by
      norm_num
    rw [counts_of_int _ _ 10 hv]; decide
  have h1 : counts 1 ((fun (b f : Nat) => 10 * (b : ℚ) + f) 0 1) = 1 := by
    have hv : (1 : ℚ) * ((fun (b f : Nat) => 10 * (b : ℚ) + f) 0 1) = ((1 : Int) : ℚ) := by
      norm_num
    rw [counts_of_int _ _ 1 hv]; decide
  have hpos : (intensities 1 (fun b f => 10 * (b : ℚ) + f) 2 2)[0 * 2 + 1]? = some 10 := by
    rw [intensities_getElem 1 (fun b f => 10 * (b : ℚ) + f) 2 2 1 0 (by decide) (by decide),
      h10]
  refine ⟨hpos, h1, ?_⟩
  rw [hpos, h1]
  decide

/-! ## C8 -/

/-- C8 (as amended): for every gain and every magnitude `>= 0` whose scaled
value truncates to an integer `t` representable in `int`, the emitted byte is
`min(255, t)` reduced modulo 256: it lies in `0..255`, equals `255` when
`t > 255`, equals `t` when `0 <= t <= 255`, agrees with the clamp into `0..255`
whenever the gain is not negative, and for negative `t` is `t mod 256`. -/
theorem counts_upper_clamp_then_wrap (sensorGain absP : ℚ) (hmag : 0 ≤ absP)
    (_hdefined : fitsInt (Intensity sensorGain absP)) :
    counts sensorGain absP ≤ 255 ∧
    (255 < Intensity sensorGain absP → counts sensorGain absP = 255) ∧
    (0 ≤ Intensity sensorGain absP → Intensity sensorGain absP ≤ 255 →
      (counts sensorGain absP : Int) = Intensity sensorGain absP) ∧
    (0 ≤ sensorGain →
      counts sensorGain absP = spec_clampToByte (Intensity sensorGain absP)) ∧
    (Intensity sensorGain absP < 0 →
      (counts sensorGain absP : Int) = Intensity sensorGain absP % 256) := by
  have hnonneg : 0 ≤ sensorGain → 0 ≤ Intensity sensorGain absP := by
    intro hg
    have hv : 0 ≤ sensorGain * absP := mul_nonneg hg hmag
    simp only [Intensity, static_cast_int, if_pos hv]
    exact Int.floor_nonneg.mpr hv
  have hc : counts sensorGain absP
      = ((min 255 (Intensity sensorGain absP)) % 256).toNat := rfl
  rw [hc]
  generalize Intensity sensorGain absP = t at *
  simp only [spec_clampToByte]
  refine ⟨by omega, ?_, ?_, ?_, ?_⟩
  · intro h; omega
  · intro h0 h255; omega
  · intro hg
    have := hnonneg hg
    omega
  · intro hneg; omega

/-- Witness for C8 (as amended): gain `1` and magnitude `300`, truncated to
`300`, which saturates at `255`. -/
theorem counts_upper_clamp_then_wrap_witness :
    counts 1 300 ≤ 255 ∧
    (255 < Intensity 1 300 → counts 1 300 = 255) ∧
    (0 ≤ Intensity 1 300 → Intensity 1 300 ≤ 255 →
      (counts 1 300 : Int) = Intensity 1 300) ∧
    (0 ≤ (1 : ℚ) → counts 1 300 = spec_clampToByte (Intensity 1 300)) ∧
    (Intensity 1 300 < 0 → (counts 1 300 : Int) = Intensity 1 300 % 256) :=
  counts_upper_clamp_then_wrap 1 300 (by norm_num)
    (by rw [Intensity_of_int 1 300 300 (by norm_num)]; decide)

/-- Counterexample to C8 as stated: with gain `-1` and magnitude `3` the
truncated value is `-3`, whose clamp into `0..255` is `0`, but the emitted
byte is `253`. -/
theorem counts_negative_gain_wraps :
    Intensity (-1) 3 = -3 ∧
    counts (-1) 3 = 253 ∧
    spec_clampToByte (Intensity (-1) 3) = 0 ∧
    counts (-1) 3 ≠ spec_clampToByte (Intensity (-1) 3) := by
  have ht : Intensity (-1) 3 = -3 := Intensity_of_int (-1) 3 (-3) (by norm_num)
  have hc : counts (-1) 3 = 253 := by
    rw [counts_of_int (-1) 3 (-3) (by norm_num)]; decide
  refine ⟨ht, hc, ?_, ?_⟩
  · rw [ht]; decide
  · rw [hc, ht]; decide

/-! ## C9 -/

/-- C9 (the code at the failing input): on the first frame of a sensor of
width `1` and height `2`, `UpdatePointCloud` leaves two entries in
`azimuth_angles`, not one: the second is the angle of the point read for the
second row. -/
theorem azimuth_angles_one_entry_per_cell (sqrtFin : ℚ → ℚ)
    (atan2 : FloatVal → FloatVal → FloatVal) (cloudAt : Nat → Nat → PointXYZI)
    (indeterminate : Bool) (image : Nat → FloatVal) :
    (UpdatePointCloud.run sqrtFin atan2 1 2 cloudAt indeterminate
        (UpdatePointCloud.Members.mk image [])).azimuth_angles.length = 2 ∧
    (UpdatePointCloud.run sqrtFin atan2 1 2 cloudAt indeterminate
        (UpdatePointCloud.Members.mk image [])).azimuth_angles[1]?
      = some (FloatVal.neg (atan2 (cloudAt 1 0).y (cloudAt 1 0).x)) := by
  obtain ⟨hlen, hentries⟩ :=
    UpdatePointCloud.run_angles_first_frame sqrtFin atan2 1 2 cloudAt indeterminate image
  exact ⟨hlen, hentries 1 0 (by decide) (by decide)⟩

/-! ## C10 -/

/-- C10 (as amended): for every configured `raySkips` value that is not
negative, the factor `Load` leaves in place and `ComputeSonarImage` passes to
the synthesizer is at least `1`: a configured `0` becomes `1`, a configured
value `>= 1` is kept unchanged. -/
theorem raySkips_floor_of_nonneg (v : Int) (hv : 0 ≤ v) :
    1 ≤ ComputeSonarImage.raySkipsArg (Load.raySkips (some v)) ∧
    (v = 0 → ComputeSonarImage.raySkipsArg (Load.raySkips (some v)) = 1) ∧
    (1 ≤ v → ComputeSonarImage.raySkipsArg (Load.raySkips (some v)) = v) := by
  unfold ComputeSonarImage.raySkipsArg Load.raySkips
  by_cases h0 : v = 0
  · simp [h0]
  · simp only [if_neg h0]
    refine ⟨by omega, fun h => absurd h h0, fun _ => trivial⟩

/-- Witness for C10 (as amended): a configured `0`. -/
theorem raySkips_floor_of_nonneg_witness :
    1 ≤ ComputeSonarImage.raySkipsArg (Load.raySkips (some 0)) ∧
    ((0 : Int) = 0 → ComputeSonarImage.raySkipsArg (Load.raySkips (some 0)) = 1) ∧
    (1 ≤ (0 : Int) → ComputeSonarImage.raySkipsArg (Load.raySkips (some 0)) = 0) :=
  raySkips_floor_of_nonneg 0 (by decide)

/-- Counterexample to C10 as stated: a configured `-1` is kept, so the factor
passed to the synthesizer is `-1`, which is below `1`. -/
theorem raySkips_negative_kept :
    ComputeSonarImage.raySkipsArg (Load.raySkips (some (-1))) = -1 ∧
    ¬ 1 ≤ ComputeSonarImage.raySkipsArg (Load.raySkips (some (-1))) := by
  decide

/-! ## C11 -/

/-- C11 (the code at the failing input): when the downcast yields no sensor,
`Load` does not reach its error message: the first use of the sensor,
`parentSensor->LaserCamera()`, is made through the null pointer before the
test `!this->parentSensor`.  No run of the first part of `Load` that returns
has written the error message. -/
theorem attach_uses_missing_sensor :
    Load.attach none
      = Except.error (Load.Fault.nullDereference Load.SensorUse.LaserCamera) ∧
    ∀ (parentSensor : Option Load.GpuRaySensor) (log : List Load.Event),
      Load.attach parentSensor = Except.ok log → Load.Event.gzerr ∉ log := by
  refine ⟨rfl, ?_⟩
  intro parentSensor log h
  cases parentSensor with
  | none => simp [Load.attach, Load.through] at h
  | some sensor =>
    simp only [Load.attach, Load.through, Option.isNone_some, Bool.false_eq_true,
      if_false, Except.ok.injEq] at h
    subst h
    simp

/-! ## C12 -/

/-- C12 (as amended): for every sensor gain, plot scaler and echo magnitude
whose scaled value is representable in `int` after truncation, the fill value
passed for a wedge is `trunc(gain * |echo|) / 2500 * plotScaler`, where the
truncation toward zero moves `gain * |echo|` by less than one; it equals
`(gain * |echo|) / 2500 * plotScaler` exactly when `plotScaler` is zero or
`gain * |echo|` is an integer. -/
theorem fillValue_of_truncated_intensity (sensorGain absP plotScaler : ℚ)
    (_hdefined : fitsInt (intensity sensorGain absP)) :
    fillValue sensorGain absP plotScaler
      = (intensity sensorGain absP : ℚ) / 2500 * plotScaler ∧
    (0 ≤ sensorGain * absP → intensity sensorGain absP = Int.floor (sensorGain * absP)) ∧
    (sensorGain * absP < 0 → intensity sensorGain absP = Int.ceil (sensorGain * absP)) ∧
    |(intensity sensorGain absP : ℚ) - sensorGain * absP| < 1 ∧
    (fillValue sensorGain absP plotScaler = spec_fillValue sensorGain absP plotScaler
      ↔ plotScaler = 0 ∨ (intensity sensorGain absP : ℚ) = sensorGain * absP) := by
  refine ⟨rfl, ?_, ?_, static_cast_int_near _, ?_⟩
  · intro h
    simp [intensity, static_cast_int, h]
  · intro h
    simp [intensity, static_cast_int, not_le.mpr h]
  · unfold fillValue spec_fillValue
    constructor
    · intro h
      by_cases hp : plotScaler = 0
      · exact Or.inl hp
      · right
        field_simp at h
        rcases h with h | h
        · exact h
        · exact absurd h hp
    · intro h
      rcases h with hp | ht
      · rw [hp]; simp
      · rw [ht]

/-- Witness for C12 (as amended): gain `1`, magnitude `300`, plot scaler `10`. -/
theorem fillValue_of_truncated_intensity_witness :
    fillValue 1 300 10 = (intensity 1 300 : ℚ) / 2500 * 10 ∧
    (0 ≤ (1 : ℚ) * 300 → intensity 1 300 = Int.floor ((1 : ℚ) * 300)) ∧
    ((1 : ℚ) * 300 < 0 → intensity 1 300 = Int.ceil ((1 : ℚ) * 300)) ∧
    |(intensity 1 300 : ℚ) - 1 * 300| < 1 ∧
    (fillValue 1 300 10 = spec_fillValue 1 300 10
      ↔ (10 : ℚ) = 0 ∨ (intensity 1 300 : ℚ) = 1 * 300) :=
  fillValue_of_truncated_intensity 1 300 10
    (by rw [intensity_eq_Intensity, Intensity_of_int 1 300 300 (by norm_num)]; decide)

/-- Counterexample to C12 as stated: with gain `1/2`, magnitude `1` and plot
scaler `10` the product `1/2` is truncated to `0` before the division, so the
fill value is `0` and not `(1/2) / 2500 * 10 = 1/500`. -/
theorem fillValue_rounds_before_division :
    intensity (1 / 2) 1 = 0 ∧
    fillValue (1 / 2) 1 10 = 0 ∧
    spec_fillValue (1 / 2) 1 10 = 1 / 500 ∧
    fillValue (1 / 2) 1 10 ≠ spec_fillValue (1 / 2) 1 10 := by
  have ht : intensity (1 / 2) 1 = 0 := by
    have hv : (0 : ℚ) ≤ 1 / 2 * 1 := by norm_num
    simp only [intensity, static_cast_int, if_pos hv]
    rw [Int.floor_eq_iff]
    constructor <;> norm_num
  have hf : fillValue (1 / 2) 1 10 = 0 := by
    unfold fillValue
    rw [ht]
    norm_num
  have hs : spec_fillValue (1 / 2) 1 10 = 1 / 500 := by
    unfold spec_fillValue
    norm_num
  refine ⟨ht, hf, hs, ?_⟩
  rw [hf, hs]
  norm_num

/-! ## C13 -/

/-- C13 (the code at the failing input): for an image radius `5` and the
effective bin count `4` (obtained for `maxDistance = 4` and ranges starting
`0, 1`), the code divides as unsigned integers, `5 / 4 = 1`, so `ceil` has no
effect and `binThickness` is `2`, whereas `2 * ceil` of the exact quotient
`5 / 4` is `4`. -/
theorem binThickness_integer_division :
    nEffectiveRanges 4 [0, 1, 2, 3, 4] = 4 ∧
    binThickness 5 (nEffectiveRanges 4 [0, 1, 2, 3, 4]) = 2 ∧
    spec_binThickness 5 (nEffectiveRanges 4 [0, 1, 2, 3, 4]) = 4 ∧
    binThickness 5 (nEffectiveRanges 4 [0, 1, 2, 3, 4])
      ≠ spec_binThickness 5 (nEffectiveRanges 4 [0, 1, 2, 3, 4]) := by
  have hn : nEffectiveRanges 4 [0, 1, 2, 3, 4] = 4 := by
    unfold nEffectiveRanges
    rw [Int.ceil_eq_iff]
    constructor <;> norm_num
  have hb : binThickness 5 4 = 2 := by
    rw [binThickness_eq_quotient 5 4 (by decide) (by decide)]
    have hq : 5 / Int.toNat 4 = 1 := by decide
    rw [hq]
    norm_num
  have hs : spec_binThickness 5 4 = 4 := by
    unfold spec_binThickness
    have hc : Int.ceil ((5 : ℕ) / ((4 : Int) : ℚ) : ℚ) = 2 := by
      rw [Int.ceil_eq_iff]
      constructor <;> norm_num
    rw [hc]
    norm_num
  rw [hn]
  refine ⟨rfl, hb, hs, ?_⟩
  rw [hb, hs]
  norm_num

/-! ## C14 -/

/-- C14 (the code at the failing input): in a RangeMap whose every cell holds
the sentinel `100000`, with a positive focal length, every normal returned
by `ComputeNormalImage` is the unit vector `(0, 0, 1)`, not the zero vector:
the mask `no_readings` is built from `depth == 0`, which no sentinel cell
satisfies, and the third channel `depth / focal_length` is not zero. -/
theorem normal_of_sentinel_map (focal_length : ℝ) (hf : 0 < focal_length)
    (rows cols y x : Nat) :
    ¬ ComputeNormalImage.no_readings
        (ComputeNormalImage.Mat.mk rows cols (fun _ _ => 100000)) y x ∧
    ComputeNormalImage.run focal_length
        (ComputeNormalImage.Mat.mk rows cols (fun _ _ => 100000)) y x
      = ComputeNormalImage.Vec3f.mk 0 0 1 ∧
    ComputeNormalImage.run focal_length
        (ComputeNormalImage.Mat.mk rows cols (fun _ _ => 100000)) y x
      ≠ ComputeNormalImage.Vec3f.mk 0 0 0 := by
  have hrun : ComputeNormalImage.run focal_length
      (ComputeNormalImage.Mat.mk rows cols (fun _ _ => 100000)) y x
      = ComputeNormalImage.Vec3f.mk 0 0 1 := by
    rw [ComputeNormalImage.run_const]
    apply ComputeNormalImage.normalize_third_axis
    positivity
  refine ⟨?_, hrun, ?_⟩
  · intro h
    have h00 := h 0 0 (by decide) (by decide) 0 0 (by decide) (by decide)
    simp [ComputeNormalImage.isZero] at h00
  · rw [hrun]
    intro h
    have h2 := congrArg ComputeNormalImage.Vec3f.v2 h
    simp at h2

/-- Witness for C14: focal length `1`, a `1 x 1` map, its only cell. -/
theorem normal_of_sentinel_map_witness :
    ¬ ComputeNormalImage.no_readings
        (ComputeNormalImage.Mat.mk 1 1 (fun _ _ => 100000)) 0 0 ∧
    ComputeNormalImage.run 1 (ComputeNormalImage.Mat.mk 1 1 (fun _ _ => 100000)) 0 0
      = ComputeNormalImage.Vec3f.mk 0 0 1 ∧
    ComputeNormalImage.run 1 (ComputeNormalImage.Mat.mk 1 1 (fun _ _ => 100000)) 0 0
      ≠ ComputeNormalImage.Vec3f.mk 0 0 0 :=
  normal_of_sentinel_map 1 one_pos 1 1 0 0

end NpsGazeboRosMultibeamSonarRay
